import Mathlib

/-!
Verification of `behave_testrail_reporter/testrail_reporter.py`.

Shallow embedding: the reporter's pure logic is translated to Lean
functions; the network client (`APIClient`) is modelled as an
environment of pure functions, and every network call made during
processing is recorded in an explicit effect trace.  Python `dict`s
keyed by strings become association lists, Python exceptions become
`Except String`, and Python's `re.match` (used only for the branch
policy) is modelled on a fragment of regular-expression syntax:
literal characters, `.`, the postfix operators `*`, `+`, `?`, Python's
escape semantics (class escapes, literal escapes, "bad escape" errors)
and bracketed character classes; compile errors mirror `re.error` — a
dangling quantifier raises exactly `nothing to repeat`, as
`re.compile('*')` does — and valid constructs outside the fragment are
declined rather than mis-modelled.
-/

namespace TestrailReporterModel

/-- A scenario step, as consumed from the test engine
(`step.keyword`, `step.name`, `step.status`). -/
structure Step where
  keyword : String
  name : String
  status : String
  deriving Repr, DecidableEq

/-- A scenario, as consumed from the test engine.  `duration` is the
already-truncated integer number of seconds (`int(scenario.duration)`). -/
structure Scenario where
  name : String
  tags : List String
  featureTags : List String
  status : String
  steps : List Step
  duration : Nat
  deriving Repr, DecidableEq

/-- A case record returned by `get_cases`; only its `id` field is read. -/
structure Case where
  id : Nat
  deriving Repr, DecidableEq

/-- A run record; only its `id` field is read (`test_run['id']`). -/
structure Run where
  id : Nat
  deriving Repr, DecidableEq

/-- The external service, modelled as pure functions
(`get_run_for_branch`, `create_run`, `get_cases`, `create_result`). -/
structure Env where
  get_run_for_branch : Nat → String → Option Run
  create_run : Nat → Nat → String → Run
  get_cases : Nat → Nat → List Case
  create_result : Nat → String → Nat → String → String → Bool

/-- One network call, recorded in the effect trace. -/
inductive Effect where
  | getRunForBranch (projectId : Nat) (branch : String)
  | createRun (projectId suiteId : Nat) (name : String)
  | getCases (projectId suiteId : Nat)
  | createResult (runId : Nat) (caseId : String) (status : Nat)
      (comment : String) (elapsed : String)
  deriving Repr, DecidableEq

/-- `TestrailProject.__init__`: configuration fields plus the two lazy
fields `test_run` (None) and `cases` (empty dict). -/
structure TestrailProject where
  id : Nat
  name : String
  suite_id : Nat
  test_run_name : String := ""
  allowed_branch_pattern : String := "*"
  test_run : Option Run := none
  cases : List (String × Case) := []
  deriving Repr, DecidableEq

/-- The reporter's `case_summary` dict; its four keys are fixed at
construction (`passed`, `failed`, `skipped`, `untested`). -/
structure CaseSummary where
  passed : Nat := 0
  failed : Nat := 0
  skipped : Nat := 0
  untested : Nat := 0
  deriving Repr, DecidableEq

/-- The reporter state touched by scenario processing. -/
structure TestrailReporter where
  branch_name : String
  projects : List TestrailProject
  case_summary : CaseSummary := {}
  failed_cases : List String := []
  deriving Repr, DecidableEq

/-- `TestrailReporter.STATUS_PASSED`. -/
def STATUS_PASSED : Nat := 1
/-- `TestrailReporter.STATUS_BLOCKED`. -/
def STATUS_BLOCKED : Nat := 2
/-- `TestrailReporter.STATUS_UNTESTED`. -/
def STATUS_UNTESTED : Nat := 3
/-- `TestrailReporter.STATUS_RETEST`. -/
def STATUS_RETEST : Nat := 4
/-- `TestrailReporter.STATUS_FAILED`. -/
def STATUS_FAILED : Nat := 5

/-- `TestrailReporter.CASE_TAG_PREFIX`. -/
def CASE_TAG_PREFIX : String := "testrail-C"

/-- `TestrailReporter.STATUS_MAPS` as a lookup: `some code` for the six
keys of the dict, `none` for every other key (a `none` result models the
`KeyError` raised by `STATUS_MAPS[scenario.status]`). -/
def STATUS_MAPS (status : String) : Option Nat :=
  if status = "passed" then some STATUS_PASSED
  else if status = "failed" then some STATUS_FAILED
  else if status = "skipped" then some STATUS_UNTESTED
  else if status = "undefined" then some STATUS_UNTESTED
  else if status = "executing" then some STATUS_UNTESTED
  else if status = "untested" then some STATUS_UNTESTED
  else none

/-! ### Summary formatting (`format_summary`) -/

/-- `status_order`: the fixed iteration order of summary categories. -/
def status_order : List String :=
  ["passed", "failed", "skipped", "undefined", "untested"]

/-- `optional_steps`: categories suppressed when their count is zero. -/
def optional_steps : List String := ["untested"]

/-- Dict lookup (`status.name in summary` / `summary[status.name]`). -/
def lookupKey (summary : List (String × Nat)) (k : String) : Option Nat :=
  match summary with
  | [] => none
  | (k₀, v₀) :: rest => if k₀ = k then some v₀ else lookupKey rest k

/-- The body of `format_summary`'s loop for one status, acting on the
accumulated `parts` list. -/
def format_summary_step (statement_type : String) (summary : List (String × Nat))
    (parts : List String) (status : String) : List String :=
  match lookupKey summary status with
  | none => parts
  | some counts =>
    if status ∈ optional_steps ∧ counts = 0 then parts
    else if parts = [] then
      let label := if counts ≠ 1 then statement_type ++ "s" else statement_type
      parts ++ [toString counts ++ " " ++ label ++ " " ++ status]
    else parts ++ [toString counts ++ " " ++ status]

/-- Python `sep.join(parts)`. -/
def joinSep (sep : String) : List String → String
  | [] => ""
  | [part] => part
  | part :: parts => part ++ sep ++ joinSep sep parts

/-- `format_summary(statement_type, summary)`. -/
def format_summary (statement_type : String) (summary : List (String × Nat)) : String :=
  joinSep ", " (status_order.foldl (format_summary_step statement_type summary) [])

/-! ### Python `re` fragment (used by the branch policy)

`re.match(pattern, string)` returns a match object iff the pattern
matches at position 0 (any prefix); compiling the pattern raises
`re.error` for ill-formed patterns, e.g. a dangling quantifier (the
reachable default pattern `*`), an unknown letter escape, a reversed
character range, or an unterminated character set.  The model covers
the fragment: literal characters, `.`, the postfix quantifiers `*` `+`
`?` (with Python's "nothing to repeat" / "multiple repeat" errors and
lazy `?` accepted as a no-op for the boolean result), escapes — the
class escapes `\d` `\D` `\w` `\W` `\s` `\S`, the literal escapes
`\n` `\t` `\r` `\f` `\v` `\a` and escaped punctuation, unknown
letter escapes raising "bad escape", numeric back-references raising
"invalid group reference" — and character classes `[...]` with leading
`^` negation, a leading literal `]`, ranges, and the same escapes
(where `\b` denotes backspace).  Class semantics are ASCII (Python
defaults are Unicode-aware; on ASCII text they agree).  Constructs
outside the fragment — groups, alternation, anchors, `{`/`}`
counted quantifiers, possessive quantifiers, `\x`/`\u`/octal escapes
and the assertions `\b` `\B` `\A` `\Z` — are declined with an
"unsupported construct" error rather than modelled. -/

/-- A character-class escape: `\d`, `\w` or `\s`. -/
inductive RClass where
  | digit
  | word
  | space
  deriving Repr, DecidableEq

/-- One item of a bracketed character class. -/
inductive RSetItem where
  | ch (c : Char)
  | range (lo hi : Char)
  | perl (neg : Bool) (cls : RClass)
  deriving Repr, DecidableEq

/-- A regex atom: a literal character, `.`, a class escape, or a
bracketed character class. -/
inductive RAtom where
  | lit (c : Char)
  | dot
  | perl (neg : Bool) (cls : RClass)
  | set (neg : Bool) (items : List RSetItem)
  deriving Repr, DecidableEq

/-- A regex piece: an atom with an optional postfix quantifier. -/
inductive RPiece where
  | once (a : RAtom)
  | star (a : RAtom)
  | plus (a : RAtom)
  | opt (a : RAtom)
  deriving Repr, DecidableEq

/-- The meaning of one escaped character. -/
inductive EscKind where
  | cls (neg : Bool) (c : RClass)
  | ch (c : Char)
  | unsupported
  | badEscape
  | groupRef
  deriving Repr, DecidableEq

/-- Classify a top-level escape `\e`, following `re`: class escapes,
literal escapes, `\b`/`\B`/`\A`/`\Z` assertions and `\x`/`\u`/
`\N`/octal escapes (declined), digit back-references (an error without
groups), "bad escape" for any other ASCII letter, and literal for
punctuation. -/
def escKindTop (e : Char) : EscKind :=
  if e = 'd' then .cls false .digit
  else if e = 'D' then .cls true .digit
  else if e = 'w' then .cls false .word
  else if e = 'W' then .cls true .word
  else if e = 's' then .cls false .space
  else if e = 'S' then .cls true .space
  else if e = 'n' then .ch '\n'
  else if e = 't' then .ch '\t'
  else if e = 'r' then .ch '\r'
  else if e = 'f' then .ch '\x0c'
  else if e = 'v' then .ch '\x0b'
  else if e = 'a' then .ch '\x07'
  else if e = 'b' ∨ e = 'B' ∨ e = 'A' ∨ e = 'Z' ∨ e = 'x' ∨ e = 'u' ∨
      e = 'N' ∨ e = '0' then .unsupported
  else if '1' ≤ e ∧ e ≤ '9' then .groupRef
  else if ('a' ≤ e ∧ e ≤ 'z') ∨ ('A' ≤ e ∧ e ≤ 'Z') then .badEscape
  else .ch e

/-- Classify an escape inside a character class: as at top level except
that `\b` is a literal backspace, digits are octal escapes (declined),
and the assertions are "bad escape" here. -/
def escKindClass (e : Char) : EscKind :=
  if e = 'd' then .cls false .digit
  else if e = 'D' then .cls true .digit
  else if e = 'w' then .cls false .word
  else if e = 'W' then .cls true .word
  else if e = 's' then .cls false .space
  else if e = 'S' then .cls true .space
  else if e = 'n' then .ch '\n'
  else if e = 't' then .ch '\t'
  else if e = 'r' then .ch '\r'
  else if e = 'f' then .ch '\x0c'
  else if e = 'v' then .ch '\x0b'
  else if e = 'a' then .ch '\x07'
  else if e = 'b' then .ch '\x08'
  else if e = 'x' ∨ e = 'u' ∨ e = 'N' ∨ ('0' ≤ e ∧ e ≤ '9') then .unsupported
  else if ('a' ≤ e ∧ e ≤ 'z') ∨ ('A' ≤ e ∧ e ≤ 'Z') then .badEscape
  else .ch e

/-- Has the parser just applied a quantifier?  Needed to reproduce
Python's "nothing to repeat" vs "multiple repeat" errors, and to accept
a lazy `?` after a quantifier. -/
inductive QState where
  | fresh
  | quantified
  | lazied

/-- The parser's state: top level with a pending (not yet emitted) atom,
after a backslash, or one of the character-class states. -/
inductive PState where
  | top (pending : Option RAtom) (q : QState)
  | esc (pending : Option RAtom)
  | clsStart (pending : Option RAtom)
  | clsStartNeg (pending : Option RAtom)
  | clsBody (pending : Option RAtom) (neg : Bool) (items : List RSetItem)
  | clsEsc (pending : Option RAtom) (neg : Bool) (items : List RSetItem)
  | clsAfterCh (pending : Option RAtom) (neg : Bool) (items : List RSetItem)
      (c : Char)
  | clsDash (pending : Option RAtom) (neg : Bool) (items : List RSetItem)
      (c : Char)
  | clsDashEsc (pending : Option RAtom) (neg : Bool) (items : List RSetItem)
      (c : Char)
  | clsAfterPerl (pending : Option RAtom) (neg : Bool) (items : List RSetItem)
  | clsPerlDash (pending : Option RAtom) (neg : Bool) (items : List RSetItem)

/-- Emit a displaced pending atom in front of a parse result. -/
def withPending (pending : Option RAtom)
    (res : Except String (List RPiece)) : Except String (List RPiece) :=
  match pending with
  | none => res
  | some a => res.map (fun ps => RPiece.once a :: ps)

/-- The regex compiler for the modelled fragment, as a state machine
consuming one character per step.  Errors mirror `re.error`:
"nothing to repeat" (what `re.compile('*')` raises), "multiple repeat",
"bad escape", "invalid group reference", "bad character range",
"unterminated character set"; a valid construct outside the fragment is
declined with "unsupported construct". -/
def parseRegexAux : PState → List Char → Except String (List RPiece)
  | .top pending _, [] =>
      .ok (match pending with | none => [] | some a => [RPiece.once a])
  | .esc _, [] => .error "bad escape"
  | .clsStart _, [] => .error "unterminated character set"
  | .clsStartNeg _, [] => .error "unterminated character set"
  | .clsBody _ _ _, [] => .error "unterminated character set"
  | .clsEsc _ _ _, [] => .error "unterminated character set"
  | .clsAfterCh _ _ _ _, [] => .error "unterminated character set"
  | .clsDash _ _ _ _, [] => .error "unterminated character set"
  | .clsDashEsc _ _ _ _, [] => .error "unterminated character set"
  | .clsAfterPerl _ _ _, [] => .error "unterminated character set"
  | .clsPerlDash _ _ _, [] => .error "unterminated character set"
  | .top pending q, c :: rest =>
    if c = '*' then
      match pending, q with
      | some a, _ => (parseRegexAux (.top none .quantified) rest).map
          (fun ps => RPiece.star a :: ps)
      | none, .fresh => .error "nothing to repeat"
      | none, _ => .error "multiple repeat"
    else if c = '+' then
      match pending, q with
      | some a, _ => (parseRegexAux (.top none .quantified) rest).map
          (fun ps => RPiece.plus a :: ps)
      | none, .fresh => .error "nothing to repeat"
      | none, _ => .error "unsupported construct"
    else if c = '?' then
      match pending, q with
      | some a, _ => (parseRegexAux (.top none .quantified) rest).map
          (fun ps => RPiece.opt a :: ps)
      | none, .fresh => .error "nothing to repeat"
      | none, .quantified => parseRegexAux (.top none .lazied) rest
      | none, .lazied => .error "multiple repeat"
    else if c = '\\' then parseRegexAux (.esc pending) rest
    else if c = '[' then parseRegexAux (.clsStart pending) rest
    else if c = '(' ∨ c = ')' ∨ c = '|' ∨ c = '^' ∨ c = '$' ∨ c = '\x7b' ∨
        c = '\x7d' then
      .error "unsupported construct"
    else if c = '.' then
      withPending pending (parseRegexAux (.top (some RAtom.dot) .fresh) rest)
    else
      withPending pending (parseRegexAux (.top (some (RAtom.lit c)) .fresh) rest)
  | .esc pending, e :: rest =>
    match escKindTop e with
    | .cls neg cls =>
        withPending pending
          (parseRegexAux (.top (some (RAtom.perl neg cls)) .fresh) rest)
    | .ch c =>
        withPending pending
          (parseRegexAux (.top (some (RAtom.lit c)) .fresh) rest)
    | .unsupported => .error "unsupported construct"
    | .badEscape => .error "bad escape"
    | .groupRef => .error "invalid group reference"
  | .clsStart pending, c :: rest =>
    if c = '^' then parseRegexAux (.clsStartNeg pending) rest
    else if c = '\\' then parseRegexAux (.clsEsc pending false []) rest
    else parseRegexAux (.clsAfterCh pending false [] c) rest
  | .clsStartNeg pending, c :: rest =>
    if c = '\\' then parseRegexAux (.clsEsc pending true []) rest
    else parseRegexAux (.clsAfterCh pending true [] c) rest
  | .clsBody pending neg items, c :: rest =>
    if c = ']' then
      withPending pending
        (parseRegexAux (.top (some (RAtom.set neg items)) .fresh) rest)
    else if c = '\\' then parseRegexAux (.clsEsc pending neg items) rest
    else parseRegexAux (.clsAfterCh pending neg items c) rest
  | .clsEsc pending neg items, e :: rest =>
    match escKindClass e with
    | .cls n cls =>
        parseRegexAux
          (.clsAfterPerl pending neg (items ++ [RSetItem.perl n cls])) rest
    | .ch c => parseRegexAux (.clsAfterCh pending neg items c) rest
    | .unsupported => .error "unsupported construct"
    | .badEscape => .error "bad escape"
    | .groupRef => .error "invalid group reference"
  | .clsAfterCh pending neg items c, c2 :: rest =>
    if c2 = ']' then
      withPending pending
        (parseRegexAux (.top (some (RAtom.set neg (items ++ [RSetItem.ch c])))
          .fresh) rest)
    else if c2 = '-' then parseRegexAux (.clsDash pending neg items c) rest
    else if c2 = '\\' then
      parseRegexAux (.clsEsc pending neg (items ++ [RSetItem.ch c])) rest
    else
      parseRegexAux (.clsAfterCh pending neg (items ++ [RSetItem.ch c]) c2)
        rest
  | .clsDash pending neg items c, c2 :: rest =>
    if c2 = ']' then
      withPending pending
        (parseRegexAux (.top (some (RAtom.set neg
          (items ++ [RSetItem.ch c, RSetItem.ch '-']))) .fresh) rest)
    else if c2 = '\\' then parseRegexAux (.clsDashEsc pending neg items c) rest
    else if c ≤ c2 then
      parseRegexAux (.clsBody pending neg (items ++ [RSetItem.range c c2]))
        rest
    else .error "bad character range"
  | .clsAfterPerl pending neg items, c :: rest =>
    if c = ']' then
      withPending pending
        (parseRegexAux (.top (some (RAtom.set neg items)) .fresh) rest)
    else if c = '-' then parseRegexAux (.clsPerlDash pending neg items) rest
    else if c = '\\' then parseRegexAux (.clsEsc pending neg items) rest
    else parseRegexAux (.clsAfterCh pending neg items c) rest
  | .clsPerlDash pending neg items, c :: rest =>
    if c = ']' then
      withPending pending
        (parseRegexAux (.top (some (RAtom.set neg
          (items ++ [RSetItem.ch '-']))) .fresh) rest)
    else .error "bad character range"
  | .clsDashEsc pending neg items c, e :: rest =>
    match escKindClass e with
    | .cls _ _ => .error "bad character range"
    | .ch c2 =>
      if c ≤ c2 then
        parseRegexAux (.clsBody pending neg (items ++ [RSetItem.range c c2]))
          rest
      else .error "bad character range"
    | .unsupported => .error "unsupported construct"
    | .badEscape => .error "bad escape"
    | .groupRef => .error "invalid group reference"

/-- Compile the supported fragment of Python regex syntax. -/
def parseRegex (cs : List Char) : Except String (List RPiece) :=
  parseRegexAux (.top none .fresh) cs

/-- Membership in a class escape, with ASCII semantics. -/
def inClass : RClass → Char → Bool
  | .digit, c => decide ('0' ≤ c ∧ c ≤ '9')
  | .word, c => decide (('a' ≤ c ∧ c ≤ 'z') ∨ ('A' ≤ c ∧ c ≤ 'Z') ∨
      ('0' ≤ c ∧ c ≤ '9') ∨ c = '_')
  | .space, c => decide (c = ' ' ∨ c = '\t' ∨ c = '\n' ∨ c = '\r' ∨
      c = '\x0b' ∨ c = '\x0c')

/-- Does one class item match a character. -/
def matchSetItem (c : Char) : RSetItem → Bool
  | .ch a => a = c
  | .range lo hi => decide (lo ≤ c ∧ c ≤ hi)
  | .perl neg cls => inClass cls c != neg

/-- Does an atom match one character (`.` excludes newline). -/
def matchAtom : RAtom → Char → Bool
  | .lit a, c => a = c
  | .dot, c => c ≠ '\n'
  | .perl neg cls, c => inClass cls c != neg
  | .set neg items, c => items.any (matchSetItem c) != neg

/-- The star loop: match the atom zero or more times, then hand the
rest of the characters to the continuation. -/
def matchStarAux (a : RAtom) (cont : List Char → Bool) : List Char → Bool
  | [] => cont []
  | c :: cs => cont (c :: cs) || (matchAtom a c && matchStarAux a cont cs)

/-- Does the piece sequence match some prefix of the character list
(the semantics of `re.match` viewed as a boolean). -/
def matchPieces : List RPiece → List Char → Bool
  | [], _ => true
  | .once a :: ps, s =>
    match s with
    | [] => false
    | c :: cs => matchAtom a c && matchPieces ps cs
  | .star a :: ps, s => matchStarAux a (matchPieces ps) s
  | .plus a :: ps, s =>
    match s with
    | [] => false
    | c :: cs => matchAtom a c && matchStarAux a (matchPieces ps) cs
  | .opt a :: ps, s =>
    matchPieces ps s ||
      (match s with
       | [] => false
       | c :: cs => matchAtom a c && matchPieces ps cs)

/-- `bool(re.match(pattern, s))`, or the `re.error` raised at compile. -/
def re_match (pattern s : String) : Except String Bool :=
  (parseRegex pattern.toList).map (fun ps => matchPieces ps s.toList)

/-- `TestrailReporter._can_generate_test_run_for_branch` (the
`r'' + str(pattern)` prefix is the identity on the string pattern). -/
def can_generate_test_run_for_branch (testrail_project : TestrailProject)
    (branch_name : String) : Except String Bool :=
  re_match testrail_project.allowed_branch_pattern branch_name

/-! ### Case loading, run setup, result submission -/

/-- Python dict insertion (a later duplicate key overwrites the earlier
entry in place). -/
def dictInsert (d : List (String × Case)) (k : String) (v : Case) :
    List (String × Case) :=
  if d.any (fun p => p.1 = k) then
    d.map (fun p => if p.1 = k then (k, v) else p)
  else d ++ [(k, v)]

/-- `{str(case['id']): case for case in cases}`. -/
def casesDict (cs : List Case) : List (String × Case) :=
  cs.foldl (fun d c => dictInsert d (toString c.id) c) []

/-- `case_id in project.cases` (dict key membership). -/
def hasKey (d : List (String × Case)) (k : String) : Bool :=
  d.any (fun p => p.1 = k)

/-- `TestrailReporter._load_test_cases_for_project`: fetch the case list
and store it keyed by stringified id; the fetch is recorded as an effect. -/
def load_test_cases_for_project (env : Env) (project : TestrailProject) :
    TestrailProject × List Effect :=
  ({ project with cases := casesDict (env.get_cases project.id project.suite_id) },
   [Effect.getCases project.id project.suite_id])

/-- `TestrailReporter.setup_test_run`: adopt the existing run for the
branch, or create one named after the branch.  Also returns the run that
ends up in `test_run` (the caller reads `project.test_run['id']`). -/
def setup_test_run (env : Env) (branch_name : String)
    (testrail_project : TestrailProject) : Run × TestrailProject × List Effect :=
  match env.get_run_for_branch testrail_project.id branch_name with
  | some run =>
      (run, { testrail_project with test_run := some run },
       [Effect.getRunForBranch testrail_project.id branch_name])
  | none =>
      let run := env.create_run testrail_project.id testrail_project.suite_id
        branch_name
      (run, { testrail_project with test_run := some run },
       [Effect.getRunForBranch testrail_project.id branch_name,
        Effect.createRun testrail_project.id testrail_project.suite_id branch_name])

/-- `TestrailReporter._add_test_result`: ensure the project has a run,
then send one result; returns the service's success boolean. -/
def add_test_result (env : Env) (branch_name : String)
    (project : TestrailProject) (case_id : String) (status : Nat)
    (comment elapsed : String) : Bool × TestrailProject × List Effect :=
  let (run, project, tr0) :=
    match project.test_run with
    | some run => (run, project, ([] : List Effect))
    | none => setup_test_run env branch_name project
  (env.create_result run.id case_id status comment elapsed, project,
   tr0 ++ [Effect.createResult run.id case_id status comment elapsed])

/-- `'->  {} {} [{}]'.format(step.keyword, step.name, step.status)` —
the source format string has two spaces after the arrow. -/
def format_step_line (step : Step) : String :=
  "->  " ++ step.keyword ++ " " ++ step.name ++ " [" ++ step.status ++ "]"

/-- `TestrailReporter._buid_comment_for_scenario`: the scenario name, a
newline, then the step lines joined by newlines. -/
def buid_comment_for_scenario (scenario : Scenario) : String :=
  scenario.name ++ "\n" ++ joinSep "\n" (scenario.steps.map format_step_line)

/-- `'%ds' % int(scenario.duration)`. -/
def elapsed_string (scenario : Scenario) : String :=
  toString scenario.duration ++ "s"

/-! ### Scenario processing (`process_scenario`) -/

/-- The body of the project loop in `process_scenario` for one matching
tag and one project: lazy case load, case lookup, status mapping (a
missing key raises), the untested-status guard, the branch-policy guard
(an invalid pattern raises), and submission with summary accounting. -/
def process_match (env : Env) (branch_name : String) (scenario : Scenario)
    (case_id : String) (testrail_project : TestrailProject)
    (case_summary : CaseSummary) (failed_cases : List String) :
    Except String (TestrailProject × CaseSummary × List String × List Effect) :=
  let (testrail_project, tr0) :=
    if testrail_project.cases.isEmpty then
      load_test_cases_for_project env testrail_project
    else (testrail_project, [])
  if hasKey testrail_project.cases case_id then
    match STATUS_MAPS scenario.status with
    | none => .error ("KeyError: " ++ scenario.status)
    | some testrail_status =>
      if testrail_status = STATUS_UNTESTED then
        .ok (testrail_project,
             { case_summary with skipped := case_summary.skipped + 1 },
             failed_cases, tr0)
      else
        match can_generate_test_run_for_branch testrail_project branch_name with
        | .error e => .error e
        | .ok allowed =>
          if allowed = false then
            .ok (testrail_project,
                 { case_summary with skipped := case_summary.skipped + 1 },
                 failed_cases, tr0)
          else
            let comment := buid_comment_for_scenario scenario
            let (is_added, testrail_project, tr1) :=
              add_test_result env branch_name testrail_project case_id
                testrail_status comment (elapsed_string scenario)
            if is_added then
              .ok (testrail_project,
                   { case_summary with passed := case_summary.passed + 1 },
                   failed_cases, tr0 ++ tr1)
            else
              .ok (testrail_project, case_summary, failed_cases ++ [case_id],
                   tr0 ++ tr1)
  else
    .ok (testrail_project,
         { case_summary with untested := case_summary.untested + 1 },
         failed_cases, tr0)

/-- The inner `for testrail_project in self.projects` loop, threading the
mutated project list, summary and failed-case list. -/
def process_projects (env : Env) (branch_name : String) (scenario : Scenario)
    (case_id : String) :
    List TestrailProject → CaseSummary → List String →
    Except String (List TestrailProject × CaseSummary × List String × List Effect)
  | [], case_summary, failed_cases => .ok ([], case_summary, failed_cases, [])
  | p :: ps, case_summary, failed_cases =>
    match process_match env branch_name scenario case_id p case_summary failed_cases with
    | .error e => .error e
    | .ok (p', sum', failed', tr) =>
      match process_projects env branch_name scenario case_id ps sum' failed' with
      | .error e => .error e
      | .ok (ps', sum'', failed'', tr') => .ok (p' :: ps', sum'', failed'', tr ++ tr')

/-- Python `tag.startswith(prefix)` (computed on the character lists). -/
def str_startsWith (s pre : String) : Bool :=
  pre.toList.isPrefixOf s.toList

/-- Python `tag[n:]`. -/
def str_drop (s : String) (n : Nat) : String :=
  ⟨s.toList.drop n⟩

/-- The outer `for tag in scenario.tags + scenario.feature.tags` loop:
tags with the case prefix are stripped to a case id and pushed through
every project. -/
def process_tags (env : Env) (branch_name : String) (scenario : Scenario) :
    List String → List TestrailProject → CaseSummary → List String →
    Except String (List TestrailProject × CaseSummary × List String × List Effect)
  | [], projects, case_summary, failed_cases =>
      .ok (projects, case_summary, failed_cases, [])
  | tag :: rest, projects, case_summary, failed_cases =>
    if str_startsWith tag CASE_TAG_PREFIX then
      let case_id := str_drop tag CASE_TAG_PREFIX.length
      match process_projects env branch_name scenario case_id projects
          case_summary failed_cases with
      | .error e => .error e
      | .ok (projects', sum', failed', tr) =>
        match process_tags env branch_name scenario rest projects' sum' failed' with
        | .error e => .error e
        | .ok (projects'', sum'', failed'', tr') =>
            .ok (projects'', sum'', failed'', tr ++ tr')
    else
      process_tags env branch_name scenario rest projects case_summary failed_cases

/-- `TestrailReporter.process_scenario`, as a state transformer on the
reporter returning the trace of network calls. -/
def process_scenario (env : Env) (st : TestrailReporter) (scenario : Scenario) :
    Except String (TestrailReporter × List Effect) :=
  match process_tags env st.branch_name scenario
      (scenario.tags ++ scenario.featureTags) st.projects st.case_summary
      st.failed_cases with
  | .error e => .error e
  | .ok (projects, case_summary, failed_cases, tr) =>
    .ok ({ st with projects := projects, case_summary := case_summary,
                   failed_cases := failed_cases }, tr)

/-- A session: the scenarios of the run processed in order (the `feature`
callback calls `process_scenario` once per scenario). -/
def process_scenarios (env : Env) :
    TestrailReporter → List Scenario → Except String (TestrailReporter × List Effect)
  | st, [] => .ok (st, [])
  | st, s :: rest =>
    match process_scenario env st s with
    | .error e => .error e
    | .ok (st', tr) =>
      match process_scenarios env st' rest with
      | .error e => .error e
      | .ok (st'', tr') => .ok (st'', tr ++ tr')

/-! ### Trace helpers and derived views -/

/-- Is an effect a `create_result` call? -/
def isCreateResult : Effect → Bool
  | .createResult .. => true
  | _ => false

/-- Is an effect a case-list fetch for project `pid`? -/
def isGetCasesFor (pid : Nat) : Effect → Bool
  | .getCases i _ => i = pid
  | _ => false

/-- Is an effect part of run setup (run lookup or run creation)? -/
def isRunSetup : Effect → Bool
  | .getRunForBranch .. => true
  | .createRun .. => true
  | _ => false

/-- Is an effect a run lookup for project `pid`? -/
def isGetRunFor (pid : Nat) : Effect → Bool
  | .getRunForBranch i _ => i = pid
  | _ => false

/-- Count the effects in a trace satisfying a predicate. -/
def countP (f : Effect → Bool) (tr : List Effect) : Nat :=
  (tr.filter f).length

/-- The case dict a project effectively consults during a match: the
already-loaded dict, or the freshly fetched one when the dict is still
empty (the `if not testrail_project.cases` guard). -/
def effectiveCases (env : Env) (p : TestrailProject) : List (String × Case) :=
  if p.cases.isEmpty then casesDict (env.get_cases p.id p.suite_id) else p.cases

/-- The project state after the lazy case load (a no-op when the dict is
already non-empty). -/
def loaded_project (env : Env) (p : TestrailProject) : TestrailProject :=
  if p.cases.isEmpty then (load_test_cases_for_project env p).1 else p

/-- The trace of the lazy case load. -/
def load_trace (env : Env) (p : TestrailProject) : List Effect :=
  if p.cases.isEmpty then (load_test_cases_for_project env p).2 else []

/-- 1 if the project still has to load its cases, 0 otherwise. -/
def casePot (p : TestrailProject) : Nat :=
  if p.cases.isEmpty then 1 else 0

/-- 1 if the project still has to set up its run, 0 otherwise. -/
def runPot (p : TestrailProject) : Nat :=
  if p.test_run = none then 1 else 0

/-- The case-load potential of the projects with id `pid`. -/
def casePotFor (pid : Nat) (projects : List TestrailProject) : Nat :=
  (projects.map (fun p => if p.id = pid then casePot p else 0)).sum

/-- The run-setup potential of the projects with id `pid`. -/
def runPotFor (pid : Nat) (projects : List TestrailProject) : Nat :=
  (projects.map (fun p => if p.id = pid then runPot p else 0)).sum

/-! ### Theorems -/

theorem countP_append (f : Effect → Bool) (tr tr' : List Effect) :
    countP f (tr ++ tr') = countP f tr + countP f tr' := by
  simp [countP]

/-- `sep.join` on a list with at least two elements peels off the head. -/
theorem joinSep_cons (sep a : String) (l : List String) (h : l ≠ []) :
    joinSep sep (a :: l) = a ++ sep ++ joinSep sep l := by
  cases l with
  | nil => exact absurd rfl h
  | cons b bs => rfl

/-- C1: for each of the six engine statuses the status map returns
exactly the corresponding external code (`passed ↦ 1`, `failed ↦ 5`, and
`skipped`, `undefined`, `executing`, `untested` each `↦ 3`); any other
status has no entry, modelling the `KeyError` raised by
`STATUS_MAPS[scenario.status]` rather than a silently returned default. -/
theorem C1_status_maps_exact (s : String) :
    STATUS_MAPS "passed" = some STATUS_PASSED ∧
    STATUS_MAPS "failed" = some STATUS_FAILED ∧
    STATUS_MAPS "skipped" = some STATUS_UNTESTED ∧
    STATUS_MAPS "undefined" = some STATUS_UNTESTED ∧
    STATUS_MAPS "executing" = some STATUS_UNTESTED ∧
    STATUS_MAPS "untested" = some STATUS_UNTESTED ∧
    (s ∉ (["passed", "failed", "skipped", "undefined", "executing",
           "untested"] : List String) → STATUS_MAPS s = none) := by
  refine ⟨rfl, rfl, rfl, rfl, rfl, rfl, fun hs => ?_⟩
  simp only [List.mem_cons, List.not_mem_nil, or_false, not_or] at hs
  obtain ⟨h1, h2, h3, h4, h5, h6⟩ := hs
  simp [STATUS_MAPS, h1, h2, h3, h4, h5, h6]

/-- C1 witness: the map applied at the six statuses and at the
unrecognized status `"running"`. -/
theorem C1_status_maps_exact_witness :
    STATUS_MAPS "running" = none :=
  (C1_status_maps_exact "running").2.2.2.2.2.2 (by decide)

/-- A concrete scenario with one step, used to exhibit the comment
format the code actually produces. -/
def exampleScenario : Scenario :=
  { name := "S", tags := [], featureTags := [], status := "passed",
    steps := [{ keyword := "Given", name := "a", status := "passed" }],
    duration := 0 }

/-- The comment format asserted by the spec sentence behind C7: a single
space between `->` and the step keyword. -/
def spec_comment_for_scenario (scenario : Scenario) : String :=
  scenario.name ++ "\n" ++ joinSep "\n" (scenario.steps.map (fun step =>
    "-> " ++ step.keyword ++ " " ++ step.name ++ " [" ++ step.status ++ "]"))

/-- C7 counterexample: the code separates the arrow from the keyword by
two spaces (`'->  {} {} [{}]'`), not the single space the claim states,
so already a one-step scenario yields a different comment. -/
theorem C7_comment_format_counterexample :
    buid_comment_for_scenario exampleScenario = "S\n->  Given a [passed]" ∧
    spec_comment_for_scenario exampleScenario = "S\n-> Given a [passed]" ∧
    buid_comment_for_scenario exampleScenario ≠
      spec_comment_for_scenario exampleScenario :=
  ⟨rfl, rfl, by decide⟩

/-- C7 (amended): the submitted comment starts with the scenario name as
its first line; when the scenario has steps, the comment is exactly the
name followed by one line per step in execution order, each line being
`->  <keyword> <step name> [<step status>]` with two spaces after the
arrow; a step-less scenario yields the name plus a trailing newline. -/
theorem C7_comment_lines_amended (scenario : Scenario) :
    (scenario.steps ≠ [] →
      buid_comment_for_scenario scenario =
        joinSep "\n" (scenario.name :: scenario.steps.map format_step_line)) ∧
    (scenario.steps = [] →
      buid_comment_for_scenario scenario = scenario.name ++ "\n") ∧
    (∀ step, format_step_line step =
      "->  " ++ step.keyword ++ " " ++ step.name ++ " [" ++ step.status ++ "]") := by
  refine ⟨fun h => ?_, fun h => ?_, fun _ => rfl⟩
  · rw [buid_comment_for_scenario, joinSep_cons]
    simpa using h
  · simp [buid_comment_for_scenario, h, joinSep]

/-- C7 amended witness: the amended characterization evaluated on the
concrete one-step scenario. -/
theorem C7_comment_lines_amended_witness :
    buid_comment_for_scenario exampleScenario =
      joinSep "\n" (exampleScenario.name ::
        exampleScenario.steps.map format_step_line) :=
  (C7_comment_lines_amended exampleScenario).1 (by decide)

/-! ### Declarative regex semantics, for the branch-policy claim -/

/-- Declarative exact-match semantics of a compiled pattern against a
whole character list. -/
inductive ExactMatch : List RPiece → List Char → Prop where
  | nil : ExactMatch [] []
  | once {a : RAtom} {c : Char} {ps : List RPiece} {cs : List Char}
      (h : matchAtom a c = true) (hm : ExactMatch ps cs) :
      ExactMatch (RPiece.once a :: ps) (c :: cs)
  | starNil {a : RAtom} {ps : List RPiece} {cs : List Char}
      (hm : ExactMatch ps cs) : ExactMatch (RPiece.star a :: ps) cs
  | starCons {a : RAtom} {c : Char} {ps : List RPiece} {cs : List Char}
      (h : matchAtom a c = true) (hm : ExactMatch (RPiece.star a :: ps) cs) :
      ExactMatch (RPiece.star a :: ps) (c :: cs)
  | optNone {a : RAtom} {ps : List RPiece} {cs : List Char}
      (hm : ExactMatch ps cs) : ExactMatch (RPiece.opt a :: ps) cs
  | optOne {a : RAtom} {c : Char} {ps : List RPiece} {cs : List Char}
      (h : matchAtom a c = true) (hm : ExactMatch ps cs) :
      ExactMatch (RPiece.opt a :: ps) (c :: cs)
  | plus {a : RAtom} {c : Char} {ps : List RPiece} {cs : List Char}
      (h : matchAtom a c = true) (hm : ExactMatch (RPiece.star a :: ps) cs) :
      ExactMatch (RPiece.plus a :: ps) (c :: cs)

/-- The semantics of `re.match` as the spec words it: the pattern
matches the string starting at position 0, i.e. exactly matches some
prefix of it. -/
def MatchesAtStart (ps : List RPiece) (s : List Char) : Prop :=
  ∃ s1 s2, s = s1 ++ s2 ∧ ExactMatch ps s1

/-- A continuation success makes the star loop succeed with zero
repetitions of the atom. -/
theorem matchStarAux_of_cont {a : RAtom} {cont : List Char → Bool}
    {s : List Char} (h : cont s = true) : matchStarAux a cont s = true := by
  cases s <;> simp [matchStarAux, h]

/-- Soundness of the declarative semantics: an exact match of a prefix
makes the boolean matcher succeed on any extension. -/
theorem matchPieces_of_exact {ps : List RPiece} {s1 : List Char}
    (h : ExactMatch ps s1) : ∀ s2, matchPieces ps (s1 ++ s2) = true := by
  induction h with
  | nil => intro s2; simp [matchPieces]
  | @once a c ps cs ha _ ih => intro s2; simp [matchPieces, ha, ih s2]
  | @starNil a ps cs _ ih => intro s2; exact matchStarAux_of_cont (ih s2)
  | @starCons a c ps cs ha _ ih =>
    intro s2
    show matchStarAux a (matchPieces ps) (c :: (cs ++ s2)) = true
    simp [matchStarAux, ha,
      show matchStarAux a (matchPieces ps) (cs ++ s2) = true from ih s2]
  | @optNone a ps cs _ ih => intro s2; simp [matchPieces, ih s2]
  | @optOne a c ps cs ha _ ih => intro s2; simp [matchPieces, ha, ih s2]
  | @plus a c ps cs ha _ ih =>
    intro s2
    simp [matchPieces, ha,
      show matchStarAux a (matchPieces ps) (cs ++ s2) = true from ih s2]

/-- Completeness of the star loop: a successful run of the loop splits
off an exactly-matched prefix. -/
theorem exact_of_matchStarAux {a : RAtom} {ps : List RPiece} :
    ∀ s, matchStarAux a (matchPieces ps) s = true →
      (∀ s', matchPieces ps s' = true → MatchesAtStart ps s') →
      MatchesAtStart (RPiece.star a :: ps) s
  | [], h, ih => by
    obtain ⟨s1, s2, heq, hex⟩ := ih [] h
    exact ⟨s1, s2, heq, .starNil hex⟩
  | c :: cs, h, ih => by
    rw [matchStarAux, Bool.or_eq_true, Bool.and_eq_true] at h
    rcases h with h | ⟨ha, h⟩
    · obtain ⟨s1, s2, heq, hex⟩ := ih (c :: cs) h
      exact ⟨s1, s2, heq, .starNil hex⟩
    · obtain ⟨s1, s2, rfl, hex⟩ := exact_of_matchStarAux cs h ih
      exact ⟨c :: s1, s2, rfl, .starCons ha hex⟩

/-- Completeness: a successful boolean match yields an exactly-matched
prefix. -/
theorem exact_of_matchPieces (ps : List RPiece) :
    ∀ s, matchPieces ps s = true → MatchesAtStart ps s := by
  induction ps with
  | nil => intro s _; exact ⟨[], s, rfl, .nil⟩
  | cons p ps ih =>
    cases p with
    | once a =>
      intro s h
      cases s with
      | nil => simp [matchPieces] at h
      | cons c cs =>
        simp only [matchPieces, Bool.and_eq_true] at h
        obtain ⟨s1, s2, rfl, hex⟩ := ih cs h.2
        exact ⟨c :: s1, s2, rfl, .once h.1 hex⟩
    | star a =>
      intro s h
      exact exact_of_matchStarAux s h ih
    | plus a =>
      intro s h
      cases s with
      | nil => simp [matchPieces] at h
      | cons c cs =>
        simp only [matchPieces, Bool.and_eq_true] at h
        obtain ⟨s1, s2, rfl, hex⟩ := exact_of_matchStarAux cs h.2 ih
        exact ⟨c :: s1, s2, rfl, .plus h.1 hex⟩
    | opt a =>
      intro s h
      cases s with
      | nil =>
        simp only [matchPieces, Bool.or_eq_true] at h
        rcases h with h | h
        · obtain ⟨s1, s2, heq, hex⟩ := ih [] h
          exact ⟨s1, s2, heq, .optNone hex⟩
        · simp at h
      | cons c cs =>
        simp only [matchPieces, Bool.or_eq_true, Bool.and_eq_true] at h
        rcases h with h | ⟨ha, h⟩
        · obtain ⟨s1, s2, heq, hex⟩ := ih (c :: cs) h
          exact ⟨s1, s2, heq, .optNone hex⟩
        · obtain ⟨s1, s2, rfl, hex⟩ := ih cs h
          exact ⟨c :: s1, s2, rfl, .optOne ha hex⟩

/-- The boolean matcher agrees with the declarative prefix semantics. -/
theorem matchPieces_iff_prefix (ps : List RPiece) (s : List Char) :
    matchPieces ps s = true ↔ MatchesAtStart ps s := by
  constructor
  · exact exact_of_matchPieces ps s
  · rintro ⟨s1, s2, rfl, hex⟩
    exact matchPieces_of_exact hex s2

/-- A project left with the constructor's default branch pattern `'*'`. -/
def starProject : TestrailProject := { id := 1, name := "P", suite_id := 2 }

/-- A project whose branch pattern `"ma"` is a valid regular expression. -/
def maProject : TestrailProject :=
  { id := 1, name := "P", suite_id := 2, allowed_branch_pattern := "ma" }

/-- C5 counterexample: the branch check is not total — the default
pattern `'*'` is not a valid regular expression, so `re.match('*', b)`
raises `re.error` ("nothing to repeat") instead of returning a boolean. -/
theorem C5_branch_policy_counterexample :
    starProject.allowed_branch_pattern = "*" ∧
    can_generate_test_run_for_branch starProject "main" =
      .error "nothing to repeat" :=
  ⟨rfl, rfl⟩

/-- C5 (amended): the branch check is not total — a pattern that does
not compile, such as the reachable constructor default `'*'`, makes it
raise `re.error` instead of returning.  For every project whose
configured pattern compiles (within the modelled fragment of regex
syntax, with Python's escape, quantifier-error and character-class
semantics), the check returns a boolean that is true exactly when the
compiled pattern matches the branch name starting at position 0, i.e.
exactly matches some prefix of it. -/
theorem C5_branch_policy_amended (p : TestrailProject) (b : String)
    (r : List RPiece) (h : parseRegex p.allowed_branch_pattern.toList = .ok r) :
    ∃ bv : Bool,
      can_generate_test_run_for_branch p b = .ok bv ∧
      (bv = true ↔ MatchesAtStart r b.toList) := by
  refine ⟨matchPieces r b.toList, ?_, matchPieces_iff_prefix r b.toList⟩
  unfold can_generate_test_run_for_branch re_match
  rw [h]
  rfl

/-- C5 amended witness: the branch check evaluated for the valid pattern
`"ma"` against branch `"main"`. -/
theorem C5_branch_policy_amended_witness :
    ∃ bv : Bool,
      can_generate_test_run_for_branch maProject "main" = .ok bv ∧
      (bv = true ↔ MatchesAtStart
        [RPiece.once (RAtom.lit 'm'), RPiece.once (RAtom.lit 'a')]
        "main".toList) :=
  C5_branch_policy_amended maProject "main"
    [RPiece.once (RAtom.lit 'm'), RPiece.once (RAtom.lit 'a')] rfl

/-- Tags without the case prefix are skipped without any action. -/
theorem process_tags_no_match (env : Env) (branch : String) (scenario : Scenario) :
    ∀ (tags : List String) (projects : List TestrailProject)
      (sum : CaseSummary) (failed : List String),
      (∀ tag ∈ tags, str_startsWith tag CASE_TAG_PREFIX = false) →
      process_tags env branch scenario tags projects sum failed =
        .ok (projects, sum, failed, []) := by
  intro tags
  induction tags with
  | nil => intro projects sum failed _; rfl
  | cons t ts ih =>
    intro projects sum failed h
    have ht : str_startsWith t CASE_TAG_PREFIX = false := h t (List.mem_cons_self t ts)
    have hts : ∀ tag ∈ ts, str_startsWith tag CASE_TAG_PREFIX = false :=
      fun tag htag => h tag (List.mem_cons_of_mem t htag)
    rw [process_tags, if_neg (by simp [ht])]
    exact ih projects sum failed hts

/-- C9: a scenario none of whose tags (own plus feature tags) starts
with `testrail-C` is processed with no network call at all and leaves
the reporter state — projects, summary counters and failed-case list —
completely unchanged. -/
theorem C9_unmatched_scenario_no_op (env : Env) (st : TestrailReporter)
    (scenario : Scenario)
    (h : ∀ tag ∈ scenario.tags ++ scenario.featureTags,
      str_startsWith tag CASE_TAG_PREFIX = false) :
    process_scenario env st scenario = .ok (st, []) := by
  unfold process_scenario
  rw [process_tags_no_match env st.branch_name scenario _ st.projects
    st.case_summary st.failed_cases h]

/-- An environment with no cases, no pre-existing runs, and a service
that accepts every result. -/
def envNone : Env :=
  { get_run_for_branch := fun _ _ => none
    create_run := fun i _ _ => { id := i }
    get_cases := fun _ _ => []
    create_result := fun _ _ _ _ _ => true }

/-- A reporter with one default-configured project on branch `main`. -/
def plainReporter : TestrailReporter :=
  { branch_name := "main", projects := [starProject] }

/-- A scenario whose tags carry no `testrail-C` prefix. -/
def untaggedScenario : Scenario :=
  { name := "S", tags := ["foo"], featureTags := ["bar"], status := "passed",
    steps := [], duration := 0 }

/-- C9 witness: the no-op evaluated on a concrete reporter and scenario. -/
theorem C9_unmatched_scenario_no_op_witness :
    process_scenario envNone plainReporter untaggedScenario =
      .ok (plainReporter, []) :=
  C9_unmatched_scenario_no_op envNone plainReporter untaggedScenario (by decide)

/-- An environment whose case list holds the single case 7. -/
def envOneCase : Env :=
  { get_run_for_branch := fun _ _ => none
    create_run := fun i _ _ => { id := i }
    get_cases := fun _ _ => [{ id := 7 }]
    create_result := fun _ _ _ _ _ => true }

/-- A project whose branch pattern `"x"` is valid but rejects `"main"`. -/
def xProject : TestrailProject :=
  { id := 1, name := "P", suite_id := 2, allowed_branch_pattern := "x" }

/-- A passing scenario tagged with case 7. -/
def passedScenario : Scenario :=
  { name := "S", tags := ["testrail-C7"], featureTags := [], status := "passed",
    steps := [], duration := 0 }

/-- C6: for a matched case whose mapped status is not Untested, in a
project whose branch pattern rejects the active branch, the match makes
no `create_result` call and triggers no run setup (no run lookup or
creation), leaves the project's run reference and the failed-case list
unchanged, and increments exactly the skipped counter by 1 (the only
trace is the lazy case-list load, when one was needed). -/
theorem C6_policy_skip (env : Env) (branch : String) (scenario : Scenario)
    (case_id : String) (p : TestrailProject) (sum : CaseSummary)
    (failed : List String) (code : Nat)
    (hstatus : STATUS_MAPS scenario.status = some code)
    (hcode : code ≠ STATUS_UNTESTED)
    (hmatch : hasKey (effectiveCases env p) case_id = true)
    (hpolicy : can_generate_test_run_for_branch p branch = .ok false) :
    process_match env branch scenario case_id p sum failed =
      .ok (loaded_project env p, { sum with skipped := sum.skipped + 1 },
           failed, load_trace env p) ∧
    (loaded_project env p).test_run = p.test_run ∧
    countP isCreateResult (load_trace env p) = 0 ∧
    countP isRunSetup (load_trace env p) = 0 := by
  refine ⟨?_, ?_, ?_, ?_⟩
  · cases hp : p.cases.isEmpty with
    | true =>
      have hmatch' : hasKey (casesDict (env.get_cases p.id p.suite_id)) case_id
          = true := by simpa [effectiveCases, hp] using hmatch
      have hcg : can_generate_test_run_for_branch
          { p with cases := casesDict (env.get_cases p.id p.suite_id) } branch
          = .ok false := hpolicy
      simp [process_match, load_test_cases_for_project, hp, hmatch', hstatus,
        hcode, hcg, loaded_project, load_trace]
    | false =>
      have hmatch' : hasKey p.cases case_id = true := by
        simpa [effectiveCases, hp] using hmatch
      simp [process_match, hp, hmatch', hstatus, hcode, hpolicy,
        loaded_project, load_trace]
  · unfold loaded_project
    split <;> simp [load_test_cases_for_project]
  · unfold load_trace
    split <;> simp [countP, load_test_cases_for_project, isCreateResult]
  · unfold load_trace
    split <;> simp [countP, load_test_cases_for_project, isRunSetup]

/-- C6 witness: the policy skip evaluated for the concrete project whose
pattern `"x"` rejects branch `"main"` and whose case list holds case 7. -/
theorem C6_policy_skip_witness :
    process_match envOneCase "main" passedScenario "7" xProject {} [] =
      .ok (loaded_project envOneCase xProject,
           { ({} : CaseSummary) with skipped := 1 }, [],
           load_trace envOneCase xProject) :=
  (C6_policy_skip envOneCase "main" passedScenario "7" xProject {} []
    STATUS_PASSED rfl (by decide) (by decide) rfl).1

/-- Rendering of a non-first summary item: `<n> <status>`. -/
def summary_item_bare (sc : String × Nat) : String :=
  toString sc.2 ++ " " ++ sc.1

/-- Rendering of the first summary item: `<n> <label> <status>`, the
label pluralized exactly when the count differs from 1. -/
def summary_item_first (statement_type : String) (sc : String × Nat) : String :=
  toString sc.2 ++ " " ++
    (if sc.2 ≠ 1 then statement_type ++ "s" else statement_type) ++ " " ++ sc.1

/-- The categories the rendering emits, in order: those present in the
mapping, except `untested` when its count is zero. -/
def visible_items (summary : List (String × Nat)) (l : List String) :
    List (String × Nat) :=
  l.filterMap (fun status =>
    match lookupKey summary status with
    | none => none
    | some counts =>
      if status ∈ optional_steps ∧ counts = 0 then none
      else some (status, counts))

/-- The rendering as the spec words it: walk the fixed category order,
keep the visible items, render the first one with a pluralized label and
the rest bare, and join with commas. -/
def format_summary_spec (statement_type : String)
    (summary : List (String × Nat)) : String :=
  match visible_items summary status_order with
  | [] => ""
  | item :: rest =>
    joinSep ", " (summary_item_first statement_type item ::
      rest.map summary_item_bare)

/-- Once the parts list is non-empty, the loop appends one bare item per
visible category. -/
theorem foldl_summary_step_ne_nil (stype : String) (summary : List (String × Nat)) :
    ∀ (l : List String) (parts : List String), parts ≠ [] →
      l.foldl (format_summary_step stype summary) parts =
        parts ++ (visible_items summary l).map summary_item_bare := by
  intro l
  induction l with
  | nil => intro parts _; simp [visible_items]
  | cons s ls ih =>
    intro parts hne
    rw [List.foldl_cons]
    cases hl : lookupKey summary s with
    | none =>
      rw [show format_summary_step stype summary parts s = parts by
        simp [format_summary_step, hl]]
      simp only [visible_items, List.filterMap_cons, hl]
      exact ih parts hne
    | some c =>
      by_cases hsup : s ∈ optional_steps ∧ c = 0
      · rw [show format_summary_step stype summary parts s = parts by
          simp [format_summary_step, hl, hsup]]
        simp only [visible_items, List.filterMap_cons, hl, if_pos hsup]
        exact ih parts hne
      · rw [show format_summary_step stype summary parts s =
            parts ++ [summary_item_bare (s, c)] by
          simp [format_summary_step, hl, hsup, hne, summary_item_bare]]
        simp only [visible_items, List.filterMap_cons, hl, if_neg hsup]
        rw [ih (parts ++ [summary_item_bare (s, c)]) (by simp)]
        simp [visible_items]
  -- appending is associative, handled by simp above

/-- Starting from an empty parts list, the loop renders the first
visible category with its label and the rest bare. -/
theorem foldl_summary_step_nil (stype : String) (summary : List (String × Nat)) :
    ∀ (l : List String),
      l.foldl (format_summary_step stype summary) [] =
        (match visible_items summary l with
         | [] => []
         | item :: rest =>
           summary_item_first stype item :: rest.map summary_item_bare) := by
  intro l
  induction l with
  | nil => simp [visible_items]
  | cons s ls ih =>
    rw [List.foldl_cons]
    cases hl : lookupKey summary s with
    | none =>
      rw [show format_summary_step stype summary [] s = [] by
        simp [format_summary_step, hl]]
      simp only [visible_items, List.filterMap_cons, hl]
      exact ih
    | some c =>
      by_cases hsup : s ∈ optional_steps ∧ c = 0
      · rw [show format_summary_step stype summary [] s = [] by
          simp [format_summary_step, hl, hsup]]
        simp only [visible_items, List.filterMap_cons, hl, if_pos hsup]
        exact ih
      · rw [show format_summary_step stype summary [] s =
            [summary_item_first stype (s, c)] by
          simp [format_summary_step, hl, hsup, summary_item_first]]
        simp only [visible_items, List.filterMap_cons, hl, if_neg hsup]
        rw [foldl_summary_step_ne_nil stype summary ls
          [summary_item_first stype (s, c)] (by simp)]
        simp [visible_items]

/-- C8: the summary renderer walks the categories in the fixed order
passed, failed, skipped, undefined, untested; skips categories absent
from the mapping; suppresses exactly the `untested` category when its
count is zero (other present categories are emitted even at zero); and
renders the first emitted item as `<n> <label> <status>` with the label
pluralized exactly when the count differs from 1 and every further item
as `<n> <status>`, joined by commas. -/
theorem C8_format_summary_refines (statement_type : String)
    (summary : List (String × Nat)) :
    format_summary statement_type summary =
      format_summary_spec statement_type summary ∧
    status_order = ["passed", "failed", "skipped", "undefined", "untested"] ∧
    optional_steps = ["untested"] := by
  refine ⟨?_, rfl, rfl⟩
  unfold format_summary format_summary_spec
  rw [foldl_summary_step_nil]
  cases visible_items summary status_order with
  | nil => rfl
  | cons item rest => rfl

/-! ### Structural facts about the lazy load and run setup -/

theorem loaded_project_id (env : Env) (p : TestrailProject) :
    (loaded_project env p).id = p.id := by
  unfold loaded_project; split <;> rfl

theorem loaded_project_suite_id (env : Env) (p : TestrailProject) :
    (loaded_project env p).suite_id = p.suite_id := by
  unfold loaded_project; split <;> rfl

theorem loaded_project_pattern (env : Env) (p : TestrailProject) :
    (loaded_project env p).allowed_branch_pattern = p.allowed_branch_pattern := by
  unfold loaded_project; split <;> rfl

theorem loaded_project_test_run (env : Env) (p : TestrailProject) :
    (loaded_project env p).test_run = p.test_run := by
  unfold loaded_project; split <;> rfl

theorem loaded_project_cases (env : Env) (p : TestrailProject) :
    (loaded_project env p).cases = effectiveCases env p := by
  unfold loaded_project effectiveCases load_test_cases_for_project
  split <;> rfl

theorem can_generate_loaded (env : Env) (p : TestrailProject) (b : String) :
    can_generate_test_run_for_branch (loaded_project env p) b =
      can_generate_test_run_for_branch p b := by
  unfold can_generate_test_run_for_branch
  rw [loaded_project_pattern]

theorem load_trace_no_create (env : Env) (p : TestrailProject) :
    countP isCreateResult (load_trace env p) = 0 := by
  unfold load_trace; split <;> simp [countP, load_test_cases_for_project, isCreateResult]

theorem load_trace_no_run_setup (env : Env) (p : TestrailProject) :
    countP isRunSetup (load_trace env p) = 0 := by
  unfold load_trace; split <;> simp [countP, load_test_cases_for_project, isRunSetup]

theorem load_trace_no_get_run (env : Env) (p : TestrailProject) (pid : Nat) :
    countP (isGetRunFor pid) (load_trace env p) = 0 := by
  unfold load_trace; split <;> simp [countP, load_test_cases_for_project, isGetRunFor]

theorem load_trace_get_cases (env : Env) (p : TestrailProject) (pid : Nat) :
    countP (isGetCasesFor pid) (load_trace env p) =
      if p.cases.isEmpty ∧ p.id = pid then 1 else 0 := by
  unfold load_trace
  split
  · simp only [countP, load_test_cases_for_project, List.filter, isGetCasesFor]
    rename_i hp
    by_cases hid : p.id = pid <;> simp [hid, hp]
  · rename_i hp
    simp only [Bool.not_eq_true] at hp
    simp [countP, hp]

/-- A dict built from a non-empty case list is non-empty. -/
theorem casesDict_ne_nil {cs : List Case} (h : cs ≠ []) : casesDict cs ≠ [] := by
  cases cs with
  | nil => exact absurd rfl h
  | cons c cs' =>
    unfold casesDict
    rw [List.foldl_cons]
    have : ∀ (d : List (String × Case)) (l : List Case), d ≠ [] →
        l.foldl (fun d c => dictInsert d (toString c.id) c) d ≠ [] := by
      intro d l
      induction l generalizing d with
      | nil => intro hd; simpa using hd
      | cons x xs ih =>
        intro hd
        rw [List.foldl_cons]
        refine ih _ ?_
        unfold dictInsert
        split
        · intro hmap
          exact hd (List.map_eq_nil_iff.mp hmap)
        · intro happ
          simp at happ
    refine this _ _ ?_
    unfold dictInsert
    simp

/-- A dict with a present key is non-empty. -/
theorem hasKey_ne_nil {d : List (String × Case)} {k : String}
    (h : hasKey d k = true) : d ≠ [] := by
  intro hd
  rw [hd] at h
  simp [hasKey] at h

/-- With a non-empty key set, the normalized effective dict is stable
under the lazy load. -/
theorem effectiveCases_loaded (env : Env) (p : TestrailProject) :
    effectiveCases env (loaded_project env p) = effectiveCases env p := by
  rw [effectiveCases, loaded_project_cases, loaded_project_id, loaded_project_suite_id]
  cases he : (effectiveCases env p).isEmpty with
  | false => simp
  | true =>
    simp only [if_true]
    have he' : effectiveCases env p = [] := List.isEmpty_iff.mp he
    rw [he']
    rw [effectiveCases] at he'
    by_cases hp : p.cases.isEmpty
    · rw [if_pos hp] at he'
      simp [he']
    · rw [if_neg hp] at he'
      exact absurd (List.isEmpty_iff.mpr he') (by simpa using hp)

/-! ### The four paths of a single (tag, project) match -/

theorem process_match_not_matched (env : Env) (branch : String)
    (scenario : Scenario) (case_id : String) (p : TestrailProject)
    (sum : CaseSummary) (failed : List String)
    (h : hasKey (effectiveCases env p) case_id = false) :
    process_match env branch scenario case_id p sum failed =
      .ok (loaded_project env p, { sum with untested := sum.untested + 1 },
           failed, load_trace env p) := by
  cases hp : p.cases.isEmpty with
  | true =>
    have h' : hasKey (casesDict (env.get_cases p.id p.suite_id)) case_id = false := by
      simpa [effectiveCases, hp] using h
    simp [process_match, load_test_cases_for_project, hp, h',
      loaded_project, load_trace]
  | false =>
    have h' : hasKey p.cases case_id = false := by
      simpa [effectiveCases, hp] using h
    simp [process_match, hp, h', loaded_project, load_trace]

theorem process_match_untested_status (env : Env) (branch : String)
    (scenario : Scenario) (case_id : String) (p : TestrailProject)
    (sum : CaseSummary) (failed : List String)
    (hmatch : hasKey (effectiveCases env p) case_id = true)
    (hstatus : STATUS_MAPS scenario.status = some STATUS_UNTESTED) :
    process_match env branch scenario case_id p sum failed =
      .ok (loaded_project env p, { sum with skipped := sum.skipped + 1 },
           failed, load_trace env p) := by
  cases hp : p.cases.isEmpty with
  | true =>
    have h' : hasKey (casesDict (env.get_cases p.id p.suite_id)) case_id = true := by
      simpa [effectiveCases, hp] using hmatch
    simp [process_match, load_test_cases_for_project, hp, h', hstatus,
      loaded_project, load_trace]
  | false =>
    have h' : hasKey p.cases case_id = true := by
      simpa [effectiveCases, hp] using hmatch
    simp [process_match, hp, h', hstatus, loaded_project, load_trace]

theorem process_match_policy_skip (env : Env) (branch : String)
    (scenario : Scenario) (case_id : String) (p : TestrailProject)
    (sum : CaseSummary) (failed : List String) (code : Nat)
    (hstatus : STATUS_MAPS scenario.status = some code)
    (hcode : code ≠ STATUS_UNTESTED)
    (hmatch : hasKey (effectiveCases env p) case_id = true)
    (hpolicy : can_generate_test_run_for_branch p branch = .ok false) :
    process_match env branch scenario case_id p sum failed =
      .ok (loaded_project env p, { sum with skipped := sum.skipped + 1 },
           failed, load_trace env p) := by
  cases hp : p.cases.isEmpty with
  | true =>
    have h' : hasKey (casesDict (env.get_cases p.id p.suite_id)) case_id = true := by
      simpa [effectiveCases, hp] using hmatch
    have hcg : can_generate_test_run_for_branch
        { p with cases := casesDict (env.get_cases p.id p.suite_id) } branch
        = .ok false := hpolicy
    simp [process_match, load_test_cases_for_project, hp, h', hstatus, hcode,
      hcg, loaded_project, load_trace]
  | false =>
    have h' : hasKey p.cases case_id = true := by
      simpa [effectiveCases, hp] using hmatch
    simp [process_match, hp, h', hstatus, hcode, hpolicy,
      loaded_project, load_trace]

theorem process_match_submit (env : Env) (branch : String)
    (scenario : Scenario) (case_id : String) (p : TestrailProject)
    (sum : CaseSummary) (failed : List String) (code : Nat)
    (hstatus : STATUS_MAPS scenario.status = some code)
    (hcode : code ≠ STATUS_UNTESTED)
    (hmatch : hasKey (effectiveCases env p) case_id = true)
    (hpolicy : can_generate_test_run_for_branch p branch = .ok true) :
    process_match env branch scenario case_id p sum failed =
      (match add_test_result env branch (loaded_project env p) case_id code
          (buid_comment_for_scenario scenario) (elapsed_string scenario) with
       | (true, p2, tr1) =>
          .ok (p2, { sum with passed := sum.passed + 1 }, failed,
               load_trace env p ++ tr1)
       | (false, p2, tr1) =>
          .ok (p2, sum, failed ++ [case_id], load_trace env p ++ tr1)) := by
  rcases hadd : add_test_result env branch (loaded_project env p) case_id code
      (buid_comment_for_scenario scenario) (elapsed_string scenario) with
    ⟨is_added, p2, tr1⟩
  cases hp : p.cases.isEmpty with
  | true =>
    have h' : hasKey (casesDict (env.get_cases p.id p.suite_id)) case_id = true := by
      simpa [effectiveCases, hp] using hmatch
    have hcg : can_generate_test_run_for_branch
        { p with cases := casesDict (env.get_cases p.id p.suite_id) } branch
        = .ok true := hpolicy
    have hadd' : add_test_result env branch
        { p with cases := casesDict (env.get_cases p.id p.suite_id) } case_id code
        (buid_comment_for_scenario scenario) (elapsed_string scenario) =
        (is_added, p2, tr1) := by
      rw [show ({ p with cases := casesDict (env.get_cases p.id p.suite_id) }
          : TestrailProject) = loaded_project env p by
        simp [loaded_project, load_test_cases_for_project, hp]]
      exact hadd
    cases is_added <;>
      simp [process_match, load_test_cases_for_project, hp, h', hstatus, hcode,
        hcg, hadd', load_trace]
  | false =>
    have h' : hasKey p.cases case_id = true := by
      simpa [effectiveCases, hp] using hmatch
    have hadd' : add_test_result env branch p case_id code
        (buid_comment_for_scenario scenario) (elapsed_string scenario) =
        (is_added, p2, tr1) := by
      rw [show p = loaded_project env p by simp [loaded_project, hp]]
      exact hadd
    cases is_added <;>
      simp [process_match, hp, h', hstatus, hcode, hpolicy, hadd', load_trace]

/-- What `_add_test_result` does: it always ends in exactly one
`create_result` call on the run that ends up cached in the project, with
at most one run lookup before it (exactly one when no run was cached). -/
theorem add_test_result_spec (env : Env) (branch : String) (p : TestrailProject)
    (case_id : String) (status : Nat) (comment elapsed : String) :
    ∃ (run : Run) (p' : TestrailProject) (tr0 : List Effect),
      add_test_result env branch p case_id status comment elapsed =
        (env.create_result run.id case_id status comment elapsed, p',
         tr0 ++ [Effect.createResult run.id case_id status comment elapsed]) ∧
      p'.id = p.id ∧ p'.suite_id = p.suite_id ∧
      p'.allowed_branch_pattern = p.allowed_branch_pattern ∧
      p'.cases = p.cases ∧ p'.test_run = some run ∧
      countP isCreateResult tr0 = 0 ∧
      (∀ pid, countP (isGetCasesFor pid) tr0 = 0) ∧
      (∀ pid, countP (isGetRunFor pid) tr0 = if p.test_run = none ∧ p.id = pid
        then 1 else 0) ∧
      (∀ q, p.test_run = some q → run = q ∧ tr0 = [] ∧ p' = p) := by
  cases hrun : p.test_run with
  | some run =>
    refine ⟨run, p, [], ?_, rfl, rfl, rfl, rfl, hrun, rfl, fun _ => rfl, ?_, ?_⟩
    · simp [add_test_result, hrun]
    · intro pid; simp [hrun, countP]
    · intro q hq
      injection hq with h
      exact ⟨h, rfl, rfl⟩
  | none =>
    cases henv : env.get_run_for_branch p.id branch with
    | some run =>
      refine ⟨run, { p with test_run := some run },
        [Effect.getRunForBranch p.id branch],
        ?_, rfl, rfl, rfl, rfl, rfl, ?_, ?_, ?_, ?_⟩
      · simp [add_test_result, hrun, setup_test_run, henv]
      · simp [countP, isCreateResult]
      · intro pid; simp [countP, isGetCasesFor]
      · intro pid
        by_cases hid : p.id = pid <;> simp [countP, isGetRunFor, hid, hrun]
      · intro q hq; simp at hq
    | none =>
      refine ⟨env.create_run p.id p.suite_id branch,
        { p with test_run := some (env.create_run p.id p.suite_id branch) },
        [Effect.getRunForBranch p.id branch,
         Effect.createRun p.id p.suite_id branch],
        ?_, rfl, rfl, rfl, rfl, rfl, ?_, ?_, ?_, ?_⟩
      · simp [add_test_result, hrun, setup_test_run, henv]
      · simp [countP, isCreateResult]
      · intro pid; simp [countP, isGetCasesFor]
      · intro pid
        by_cases hid : p.id = pid <;> simp [countP, isGetRunFor, isCreateResult, hid, hrun]
      · intro q hq; simp at hq

/-! ### C3: outcome classification of one (tag, project) match -/

/-- The four possible outcomes of one (scenario, matching-tag, project)
triple. -/
inductive MatchOutcome where
  | submitted
  | skippedUntestedStatus
  | skippedByPolicy
  | notMatched
  deriving Repr, DecidableEq

/-- What it means for an outcome to be the one recorded by a match: the
guard that selects it together with its footprint on the summary
counters, the failed-case list and the submission trace. -/
def OutcomeRecorded (env : Env) (branch : String) (scenario : Scenario)
    (case_id : String) (p : TestrailProject) (sum sum' : CaseSummary)
    (failed failed' : List String) (tr : List Effect) :
    MatchOutcome → Prop
  | .submitted =>
      hasKey (effectiveCases env p) case_id = true ∧
      STATUS_MAPS scenario.status ≠ some STATUS_UNTESTED ∧
      can_generate_test_run_for_branch p branch = .ok true ∧
      countP isCreateResult tr = 1 ∧
      sum'.passed + failed'.length = sum.passed + failed.length + 1 ∧
      sum'.skipped = sum.skipped ∧ sum'.untested = sum.untested
  | .skippedUntestedStatus =>
      hasKey (effectiveCases env p) case_id = true ∧
      STATUS_MAPS scenario.status = some STATUS_UNTESTED ∧
      countP isCreateResult tr = 0 ∧
      sum'.skipped = sum.skipped + 1 ∧
      sum'.passed = sum.passed ∧ sum'.untested = sum.untested ∧
      failed' = failed
  | .skippedByPolicy =>
      hasKey (effectiveCases env p) case_id = true ∧
      STATUS_MAPS scenario.status ≠ some STATUS_UNTESTED ∧
      can_generate_test_run_for_branch p branch = .ok false ∧
      countP isCreateResult tr = 0 ∧
      sum'.skipped = sum.skipped + 1 ∧
      sum'.passed = sum.passed ∧ sum'.untested = sum.untested ∧
      failed' = failed
  | .notMatched =>
      hasKey (effectiveCases env p) case_id = false ∧
      countP isCreateResult tr = 0 ∧
      sum'.untested = sum.untested + 1 ∧
      sum'.passed = sum.passed ∧ sum'.skipped = sum.skipped ∧
      failed' = failed

/-- C3 counterexample: the exactly-one-outcome claim is not
unconditional.  With the constructor's reachable default branch pattern
`'*'`, a matched case whose scenario status is `passed` (mapped, not
Untested) makes the branch-policy check raise `re.error` ("nothing to
repeat"), so the match aborts with an exception and records none of the
four outcomes for that (scenario, matching-tag, project) triple. -/
theorem C3_exactly_one_outcome_counterexample :
    starProject.allowed_branch_pattern = "*" ∧
    hasKey (effectiveCases envOneCase starProject) "7" = true ∧
    STATUS_MAPS passedScenario.status = some STATUS_PASSED ∧
    process_match envOneCase "main" passedScenario "7" starProject {} [] =
      .error "nothing to repeat" :=
  ⟨rfl, rfl, rfl, rfl⟩

/-- C3 (amended): for each (scenario, matching-tag, project) triple
processed without raising — the scenario's status is one of the six
mapped statuses and the project's branch pattern compiles as a regular
expression — the match returns normally and exactly one of the four
outcomes — submitted, skipped-by-untested-status, skipped-by-policy,
not-matched — is recorded; the four are mutually exclusive and
collectively exhaustive.  (With an unmapped status or a non-compiling
pattern, such as the reachable default `'*'`, the match raises instead
and records no outcome, as the counterexample shows.) -/
theorem C3_exactly_one_outcome (env : Env) (branch : String)
    (scenario : Scenario) (case_id : String) (p : TestrailProject)
    (sum : CaseSummary) (failed : List String) (code : Nat) (allowed : Bool)
    (hstatus : STATUS_MAPS scenario.status = some code)
    (hpolicy : can_generate_test_run_for_branch p branch = .ok allowed) :
    ∃ p' sum' failed' tr,
      process_match env branch scenario case_id p sum failed =
        .ok (p', sum', failed', tr) ∧
      ∃! o : MatchOutcome,
        OutcomeRecorded env branch scenario case_id p sum sum' failed failed'
          tr o := by
  cases hk : hasKey (effectiveCases env p) case_id with
  | false =>
    refine ⟨_, _, _, _,
      process_match_not_matched env branch scenario case_id p sum failed hk, ?_⟩
    refine ⟨.notMatched,
      ⟨hk, load_trace_no_create env p, rfl, rfl, rfl, rfl⟩, ?_⟩
    rintro o' h'
    cases o' <;> first
      | rfl
      | simp only [OutcomeRecorded, hk] at h'; exact absurd h'.1 (by simp)
  | true =>
    by_cases hc : code = STATUS_UNTESTED
    · subst hc
      refine ⟨_, _, _, _,
        process_match_untested_status env branch scenario case_id p sum failed
          hk hstatus, ?_⟩
      refine ⟨.skippedUntestedStatus,
        ⟨hk, hstatus, load_trace_no_create env p, rfl, rfl, rfl, rfl⟩, ?_⟩
      rintro o' h'
      cases o' with
      | skippedUntestedStatus => rfl
      | submitted => exact absurd hstatus h'.2.1
      | skippedByPolicy => exact absurd hstatus h'.2.1
      | notMatched => simp only [OutcomeRecorded, hk] at h'; exact absurd h'.1 (by simp)
    · have hne : STATUS_MAPS scenario.status ≠ some STATUS_UNTESTED := by
        rw [hstatus]
        intro h
        exact hc (Option.some.inj h)
      cases allowed with
      | false =>
        refine ⟨_, _, _, _,
          process_match_policy_skip env branch scenario case_id p sum failed
            code hstatus hc hk hpolicy, ?_⟩
        refine ⟨.skippedByPolicy,
          ⟨hk, hne, hpolicy, load_trace_no_create env p, rfl, rfl, rfl, rfl⟩, ?_⟩
        rintro o' h'
        cases o' with
        | skippedByPolicy => rfl
        | submitted =>
          have hh := h'.2.2.1
          rw [hpolicy] at hh
          exact absurd hh (by simp)
        | skippedUntestedStatus => exact absurd h'.2.1 hne
        | notMatched => simp only [OutcomeRecorded, hk] at h'; exact absurd h'.1 (by simp)
      | true =>
        obtain ⟨run, p2, tr0, heq, _, _, _, _, _, hc0, _, _, _⟩ :=
          add_test_result_spec env branch (loaded_project env p) case_id code
            (buid_comment_for_scenario scenario) (elapsed_string scenario)
        have hpm := process_match_submit env branch scenario case_id p sum
          failed code hstatus hc hk hpolicy
        rw [heq] at hpm
        have hone : countP isCreateResult (load_trace env p ++
            (tr0 ++ [Effect.createResult run.id case_id code
              (buid_comment_for_scenario scenario) (elapsed_string scenario)])) = 1 := by
          rw [countP_append, countP_append, load_trace_no_create, hc0]
          simp [countP, isCreateResult]
        cases hcr : env.create_result run.id case_id code
            (buid_comment_for_scenario scenario) (elapsed_string scenario) with
        | true =>
          rw [hcr] at hpm
          refine ⟨_, _, _, _, hpm, ?_⟩
          refine ⟨.submitted, ⟨hk, hne, hpolicy, hone,
            by show sum.passed + 1 + failed.length = sum.passed + failed.length + 1; omega,
            rfl, rfl⟩, ?_⟩
          rintro o' h'
          cases o' with
          | submitted => rfl
          | skippedUntestedStatus => exact absurd h'.2.1 hne
          | skippedByPolicy =>
            have hh := h'.2.2.2.1
            rw [hone] at hh
            exact absurd hh (by simp)
          | notMatched => simp only [OutcomeRecorded, hk] at h'; exact absurd h'.1 (by simp)
        | false =>
          rw [hcr] at hpm
          refine ⟨_, _, _, _, hpm, ?_⟩
          refine ⟨.submitted, ⟨hk, hne, hpolicy, hone,
            by show sum.passed + (failed ++ [case_id]).length =
              sum.passed + failed.length + 1; simp [List.length_append]; omega,
            rfl, rfl⟩, ?_⟩
          rintro o' h'
          cases o' with
          | submitted => rfl
          | skippedUntestedStatus => exact absurd h'.2.1 hne
          | skippedByPolicy =>
            have hh := h'.2.2.2.1
            rw [hone] at hh
            exact absurd hh (by simp)
          | notMatched => simp only [OutcomeRecorded, hk] at h'; exact absurd h'.1 (by simp)

/-- C3 witness: the classification evaluated on the concrete
policy-skipped match of case 7. -/
theorem C3_exactly_one_outcome_witness :
    ∃ p' sum' failed' tr,
      process_match envOneCase "main" passedScenario "7" xProject {} [] =
        .ok (p', sum', failed', tr) ∧
      ∃! o : MatchOutcome,
        OutcomeRecorded envOneCase "main" passedScenario "7" xProject {} sum'
          [] failed' tr o :=
  C3_exactly_one_outcome envOneCase "main" passedScenario "7" xProject {} []
    STATUS_PASSED false rfl rfl

/-! ### C4: untested-status scenarios are never submitted -/

/-- How many configured projects contain the given case id (consulting
each project's effectively loaded dict). -/
def matchedProjectCount (env : Env) (projects : List TestrailProject)
    (case_id : String) : Nat :=
  ((projects.map (fun p => effectiveCases env p)).filter
    (fun cs => hasKey cs case_id)).length

/-- How many (matching-tag, project) pairs a tag list yields. -/
def matchedPairCount (env : Env) (projects : List TestrailProject) :
    List String → Nat
  | [] => 0
  | tag :: rest =>
    (if str_startsWith tag CASE_TAG_PREFIX then
      matchedProjectCount env projects (str_drop tag CASE_TAG_PREFIX.length)
     else 0) + matchedPairCount env projects rest

theorem matchedPairCount_congr (env : Env) {ps qs : List TestrailProject}
    (h : ps.map (fun p => effectiveCases env p) =
      qs.map (fun p => effectiveCases env p)) :
    ∀ tags, matchedPairCount env ps tags = matchedPairCount env qs tags := by
  intro tags
  induction tags with
  | nil => rfl
  | cons t ts ih =>
    rw [matchedPairCount, matchedPairCount, ih]
    unfold matchedProjectCount
    rw [h]

theorem map_effectiveCases_loaded (env : Env) (projects : List TestrailProject) :
    (projects.map (loaded_project env)).map (fun p => effectiveCases env p) =
      projects.map (fun p => effectiveCases env p) := by
  rw [List.map_map]
  exact List.map_congr_left (fun p _ => effectiveCases_loaded env p)

/-- With untested status every project either records a skip (case
matched) or a miss (not matched); nothing is submitted and no run is
set up. -/
theorem process_projects_untested (env : Env) (branch : String)
    (scenario : Scenario) (case_id : String)
    (hstatus : STATUS_MAPS scenario.status = some STATUS_UNTESTED) :
    ∀ (projects : List TestrailProject) (sum : CaseSummary)
      (failed : List String),
      ∃ sum' tr,
        process_projects env branch scenario case_id projects sum failed =
          .ok (projects.map (loaded_project env), sum', failed, tr) ∧
        countP isCreateResult tr = 0 ∧
        countP isRunSetup tr = 0 ∧
        sum'.skipped = sum.skipped + matchedProjectCount env projects case_id ∧
        sum'.passed = sum.passed := by
  intro projects
  induction projects with
  | nil =>
    intro sum failed
    exact ⟨sum, [], rfl, rfl, rfl, by simp [matchedProjectCount], rfl⟩
  | cons p ps ih =>
    intro sum failed
    cases hk : hasKey (effectiveCases env p) case_id with
    | true =>
      obtain ⟨sum', tr', heq', hc1, hc2, hsk, hpa⟩ :=
        ih { sum with skipped := sum.skipped + 1 } failed
      refine ⟨sum', load_trace env p ++ tr', ?_, ?_, ?_, ?_, hpa⟩
      · rw [process_projects,
          process_match_untested_status env branch scenario case_id p sum
            failed hk hstatus]
        dsimp only
        rw [heq']
        rfl
      · rw [countP_append, load_trace_no_create, hc1]
      · rw [countP_append, load_trace_no_run_setup, hc2]
      · rw [hsk]
        simp [matchedProjectCount, hk]
        omega
    | false =>
      obtain ⟨sum', tr', heq', hc1, hc2, hsk, hpa⟩ :=
        ih { sum with untested := sum.untested + 1 } failed
      refine ⟨sum', load_trace env p ++ tr', ?_, ?_, ?_, ?_, hpa⟩
      · rw [process_projects,
          process_match_not_matched env branch scenario case_id p sum failed hk]
        dsimp only
        rw [heq']
        rfl
      · rw [countP_append, load_trace_no_create, hc1]
      · rw [countP_append, load_trace_no_run_setup, hc2]
      · rw [hsk]
        simp [matchedProjectCount, hk]

/-- With untested status the whole tag walk records one skip per
matching (tag, project) pair and never submits. -/
theorem process_tags_untested (env : Env) (branch : String)
    (scenario : Scenario)
    (hstatus : STATUS_MAPS scenario.status = some STATUS_UNTESTED) :
    ∀ (tags : List String) (projects : List TestrailProject)
      (sum : CaseSummary) (failed : List String),
      ∃ projects' sum' tr,
        process_tags env branch scenario tags projects sum failed =
          .ok (projects', sum', failed, tr) ∧
        countP isCreateResult tr = 0 ∧
        countP isRunSetup tr = 0 ∧
        sum'.skipped = sum.skipped + matchedPairCount env projects tags ∧
        sum'.passed = sum.passed ∧
        projects'.map (fun p => effectiveCases env p) =
          projects.map (fun p => effectiveCases env p) := by
  intro tags
  induction tags with
  | nil =>
    intro projects sum failed
    exact ⟨projects, sum, [], rfl, rfl, rfl, by simp [matchedPairCount], rfl, rfl⟩
  | cons t ts ih =>
    intro projects sum failed
    cases hpre : str_startsWith t CASE_TAG_PREFIX with
    | false =>
      obtain ⟨projects', sum', tr, heq, hc1, hc2, hsk, hpa, hmap⟩ :=
        ih projects sum failed
      refine ⟨projects', sum', tr, ?_, hc1, hc2, ?_, hpa, hmap⟩
      · rw [process_tags, if_neg (by simp [hpre])]
        exact heq
      · rw [hsk, matchedPairCount, hpre]
        simp
    | true =>
      obtain ⟨sum1, tr1, heq1, hc11, hc21, hsk1, hpa1⟩ :=
        process_projects_untested env branch scenario
          (str_drop t CASE_TAG_PREFIX.length) hstatus projects sum failed
      obtain ⟨projects', sum', tr', heq', hc1', hc2', hsk', hpa', hmap'⟩ :=
        ih (projects.map (loaded_project env)) sum1 failed
      refine ⟨projects', sum', tr1 ++ tr', ?_, ?_, ?_, ?_, ?_, ?_⟩
      · rw [process_tags, if_pos (by simp [hpre])]
        dsimp only
        rw [heq1]
        dsimp only
        rw [heq']
      · rw [countP_append, hc11, hc1']
      · rw [countP_append, hc21, hc2']
      · rw [hsk', hsk1, matchedPairCount, hpre,
          matchedPairCount_congr env (map_effectiveCases_loaded env projects) ts]
        simp
        omega
      · rw [hpa', hpa1]
      · rw [hmap', map_effectiveCases_loaded]

/-- C4: a scenario whose engine status maps to the external Untested
code (skipped, undefined, executing or untested) is never submitted —
its processing makes no `create_result` call and no run setup — and the
skipped counter grows by exactly one per matching (tag, project) pair,
with the passed counter and failed-case list untouched. -/
theorem C4_untested_never_submitted (env : Env) (st : TestrailReporter)
    (scenario : Scenario)
    (hstatus : STATUS_MAPS scenario.status = some STATUS_UNTESTED) :
    ∃ st' tr,
      process_scenario env st scenario = .ok (st', tr) ∧
      countP isCreateResult tr = 0 ∧
      countP isRunSetup tr = 0 ∧
      st'.case_summary.skipped = st.case_summary.skipped +
        matchedPairCount env st.projects
          (scenario.tags ++ scenario.featureTags) ∧
      st'.case_summary.passed = st.case_summary.passed ∧
      st'.failed_cases = st.failed_cases := by
  obtain ⟨projects', sum', tr, heq, h1, h2, h3, h4, _⟩ :=
    process_tags_untested env st.branch_name scenario hstatus
      (scenario.tags ++ scenario.featureTags) st.projects st.case_summary
      st.failed_cases
  have heqs : process_scenario env st scenario =
      .ok ({ st with projects := projects', case_summary := sum' }, tr) := by
    unfold process_scenario
    rw [heq]
  exact ⟨_, tr, heqs, h1, h2, h3, h4, rfl⟩

/-- A skipped scenario tagged with case 7. -/
def skippedScenario : Scenario :=
  { name := "S", tags := ["testrail-C7"], featureTags := [], status := "skipped",
    steps := [], duration := 0 }

/-- C4 witness: the untested-status path evaluated on a concrete
skipped scenario with one matching project. -/
theorem C4_untested_never_submitted_witness :
    ∃ st' tr,
      process_scenario envOneCase { branch_name := "main", projects := [xProject] }
        skippedScenario = .ok (st', tr) ∧
      countP isCreateResult tr = 0 ∧
      countP isRunSetup tr = 0 ∧
      st'.case_summary.skipped =
        ({ branch_name := "main", projects := [xProject] }
          : TestrailReporter).case_summary.skipped +
        matchedPairCount envOneCase [xProject]
          (skippedScenario.tags ++ skippedScenario.featureTags) ∧
      st'.case_summary.passed =
        ({ branch_name := "main", projects := [xProject] }
          : TestrailReporter).case_summary.passed ∧
      st'.failed_cases =
        ({ branch_name := "main", projects := [xProject] }
          : TestrailReporter).failed_cases :=
  C4_untested_never_submitted envOneCase
    { branch_name := "main", projects := [xProject] } skippedScenario rfl

/-! ### C10: duplicate tag occurrences submit independently -/

theorem process_projects_singleton (env : Env) (branch : String)
    (scenario : Scenario) (cid : String) (p p' : TestrailProject)
    (sum sum' : CaseSummary) (failed failed' : List String) (tr : List Effect)
    (h : process_match env branch scenario cid p sum failed =
      .ok (p', sum', failed', tr)) :
    process_projects env branch scenario cid [p] sum failed =
      .ok ([p'], sum', failed', tr ++ []) := by
  rw [process_projects, h]
  rfl

/-- C10: when the same case tag appears both on the scenario and on its
feature, each occurrence is processed independently: with a matched
case, an allowed branch and a service that accepts results, one
`create_result` call is made and the passed counter is incremented per
occurrence — the same case is submitted twice by one scenario. -/
theorem C10_duplicate_tag_double_submit (env : Env) (st : TestrailReporter)
    (scenario : Scenario) (tag : String) (code : Nat) (p : TestrailProject)
    (htags : scenario.tags = [tag]) (hftags : scenario.featureTags = [tag])
    (hpfx : str_startsWith tag CASE_TAG_PREFIX = true)
    (hprojects : st.projects = [p])
    (hstatus : STATUS_MAPS scenario.status = some code)
    (hcode : code ≠ STATUS_UNTESTED)
    (hmatch : hasKey (effectiveCases env p)
      (str_drop tag CASE_TAG_PREFIX.length) = true)
    (hpolicy : can_generate_test_run_for_branch p st.branch_name = .ok true)
    (hcr : ∀ rid cid s cm el, env.create_result rid cid s cm el = true) :
    ∃ st' tr,
      process_scenario env st scenario = .ok (st', tr) ∧
      countP isCreateResult tr = 2 ∧
      st'.case_summary.passed = st.case_summary.passed + 2 := by
  obtain ⟨run, P2, tr0, heqA, hid2, hsuite2, hpat2, hcases2, hrun2, hcA, _, _, _⟩ :=
    add_test_result_spec env st.branch_name (loaded_project env p)
      (str_drop tag CASE_TAG_PREFIX.length) code
      (buid_comment_for_scenario scenario) (elapsed_string scenario)
  have hpm1 := process_match_submit env st.branch_name scenario
    (str_drop tag CASE_TAG_PREFIX.length) p st.case_summary st.failed_cases code
    hstatus hcode hmatch hpolicy
  rw [heqA, hcr run.id (str_drop tag CASE_TAG_PREFIX.length) code
    (buid_comment_for_scenario scenario) (elapsed_string scenario)] at hpm1
  dsimp only at hpm1
  -- the project after the first submission has the loaded cases, the
  -- same pattern, and a cached run
  have hcases2' : P2.cases = effectiveCases env p := by
    rw [hcases2, loaded_project_cases]
  have hne : effectiveCases env p ≠ [] := hasKey_ne_nil hmatch
  have hEmpty2 : P2.cases.isEmpty = false := by
    rw [hcases2']
    cases he : (effectiveCases env p).isEmpty
    · rfl
    · exact absurd (List.isEmpty_iff.mp he) hne
  have heff2 : effectiveCases env P2 = effectiveCases env p := by
    rw [effectiveCases, hEmpty2]
    simpa using hcases2'
  have hmatch2 : hasKey (effectiveCases env P2)
      (str_drop tag CASE_TAG_PREFIX.length) = true := by
    rw [heff2]; exact hmatch
  have hpolicy2 : can_generate_test_run_for_branch P2 st.branch_name =
      .ok true := by
    unfold can_generate_test_run_for_branch
    rw [hpat2, loaded_project_pattern]
    exact hpolicy
  have hl2 : loaded_project env P2 = P2 := by
    unfold loaded_project
    rw [hEmpty2]
    simp
  obtain ⟨run2, P3, tr0', heqB, _, _, _, _, _, hcB, _, _, hsomeB⟩ :=
    add_test_result_spec env st.branch_name (loaded_project env P2)
      (str_drop tag CASE_TAG_PREFIX.length) code
      (buid_comment_for_scenario scenario) (elapsed_string scenario)
  rw [hl2] at heqB hsomeB
  obtain ⟨hrun2eq, htr0', hP3⟩ := hsomeB run hrun2
  rw [hrun2eq, htr0', hP3] at heqB
  rw [htr0'] at hcB
  have hpm2 := process_match_submit env st.branch_name scenario
    (str_drop tag CASE_TAG_PREFIX.length) P2
    { st.case_summary with passed := st.case_summary.passed + 1 }
    st.failed_cases code hstatus hcode hmatch2 hpolicy2
  rw [hl2, heqB, hcr run.id (str_drop tag CASE_TAG_PREFIX.length) code
    (buid_comment_for_scenario scenario) (elapsed_string scenario)] at hpm2
  dsimp only at hpm2
  -- assemble the whole scenario
  have hpp1 := process_projects_singleton env st.branch_name scenario
    (str_drop tag CASE_TAG_PREFIX.length) p _ st.case_summary _ st.failed_cases _ _
    hpm1
  have hpp2 := process_projects_singleton env st.branch_name scenario
    (str_drop tag CASE_TAG_PREFIX.length) P2 _
    { st.case_summary with passed := st.case_summary.passed + 1 } _
    st.failed_cases _ _ hpm2
  have hfull : process_scenario env st scenario =
      .ok ({ st with projects := [P2],
                     case_summary := { st.case_summary with
                       passed := st.case_summary.passed + 1 + 1 } },
           ((load_trace env p ++ (tr0 ++
              [Effect.createResult run.id (str_drop tag CASE_TAG_PREFIX.length)
                code (buid_comment_for_scenario scenario)
                (elapsed_string scenario)])) ++ []) ++
           (((load_trace env P2 ++ ([] ++
              [Effect.createResult run.id (str_drop tag CASE_TAG_PREFIX.length)
                code (buid_comment_for_scenario scenario)
                (elapsed_string scenario)])) ++ []) ++ [])) := by
    unfold process_scenario
    rw [htags, hftags, hprojects]
    simp only [List.cons_append, List.nil_append]
    rw [process_tags, if_pos (by simp [hpfx])]
    dsimp only
    rw [hpp1]
    dsimp only
    rw [process_tags, if_pos (by simp [hpfx])]
    dsimp only
    rw [hpp2]
    dsimp only
    rw [process_tags]
    rfl
  refine ⟨_, _, hfull, ?_, ?_⟩
  · simp only [countP_append, load_trace_no_create, hcA]
    simp [countP, isCreateResult]
  · show st.case_summary.passed + 1 + 1 = st.case_summary.passed + 2
    omega

/-- A passing scenario carrying the case-7 tag both on itself and on
its feature. -/
def dupScenario : Scenario :=
  { name := "S", tags := ["testrail-C7"], featureTags := ["testrail-C7"],
    status := "passed", steps := [], duration := 0 }

/-- C10 witness: the double submission evaluated on a concrete scenario
whose tag appears on both the scenario and its feature. -/
theorem C10_duplicate_tag_double_submit_witness :
    ∃ st' tr,
      process_scenario envOneCase
        { branch_name := "main", projects := [maProject] } dupScenario =
        .ok (st', tr) ∧
      countP isCreateResult tr = 2 ∧
      st'.case_summary.passed =
        ({ branch_name := "main", projects := [maProject] }
          : TestrailReporter).case_summary.passed + 2 :=
  C10_duplicate_tag_double_submit envOneCase
    { branch_name := "main", projects := [maProject] } dupScenario
    "testrail-C7" STATUS_PASSED maProject rfl rfl (by decide) rfl rfl
    (by decide) (by decide) rfl (fun _ _ _ _ _ => rfl)

/-! ### C2: memoization of case loading and run setup -/

/-- A scenario with two case tags that match nothing. -/
def twoTagScenario : Scenario :=
  { name := "S", tags := ["testrail-C1", "testrail-C2"], featureTags := [],
    status := "passed", steps := [], duration := 0 }

/-- C2 counterexample: when the service returns an empty case list for
the project, the `if not testrail_project.cases` guard re-fetches on
every matching tag — one scenario with two matching tags already makes
two `get_cases` calls for the same project in one session. -/
theorem C2_memoization_counterexample :
    process_scenario envNone plainReporter twoTagScenario =
      .ok ({ plainReporter with case_summary := { untested := 2 } },
           [Effect.getCases 1 2, Effect.getCases 1 2]) ∧
    countP (isGetCasesFor 1) [Effect.getCases 1 2, Effect.getCases 1 2] = 2 :=
  ⟨rfl, rfl⟩

/-- The remaining lazy-load ticket of a project's match: with a service
that never hands back an empty case list, the load is consumed for good. -/
theorem effectiveCases_ne_nil (env : Env) (p : TestrailProject)
    (henv : ∀ i s, env.get_cases i s ≠ []) :
    effectiveCases env p ≠ [] := by
  unfold effectiveCases
  split
  · exact casesDict_ne_nil (henv p.id p.suite_id)
  · rename_i hp
    simpa using hp

theorem casePot_loaded (env : Env) (p : TestrailProject)
    (henv : ∀ i s, env.get_cases i s ≠ []) :
    casePot (loaded_project env p) = 0 := by
  unfold casePot
  rw [loaded_project_cases]
  cases hd : (effectiveCases env p).isEmpty with
  | true =>
    exact absurd (List.isEmpty_iff.mp hd) (effectiveCases_ne_nil env p henv)
  | false => simp

theorem runPot_loaded (env : Env) (p : TestrailProject) :
    runPot (loaded_project env p) = runPot p := by
  unfold runPot
  rw [loaded_project_test_run]

/-- The error path when the scenario's status has no entry in the map. -/
theorem process_match_status_none (env : Env) (branch : String)
    (scenario : Scenario) (case_id : String) (p : TestrailProject)
    (sum : CaseSummary) (failed : List String)
    (hmatch : hasKey (effectiveCases env p) case_id = true)
    (hstatus : STATUS_MAPS scenario.status = none) :
    process_match env branch scenario case_id p sum failed =
      .error ("KeyError: " ++ scenario.status) := by
  cases hp : p.cases.isEmpty with
  | true =>
    have h' : hasKey (casesDict (env.get_cases p.id p.suite_id)) case_id = true := by
      simpa [effectiveCases, hp] using hmatch
    simp [process_match, load_test_cases_for_project, hp, h', hstatus]
  | false =>
    have h' : hasKey p.cases case_id = true := by
      simpa [effectiveCases, hp] using hmatch
    simp [process_match, hp, h', hstatus]

/-- The error path when the project's branch pattern does not compile. -/
theorem process_match_policy_error (env : Env) (branch : String)
    (scenario : Scenario) (case_id : String) (p : TestrailProject)
    (sum : CaseSummary) (failed : List String) (code : Nat) (e : String)
    (hstatus : STATUS_MAPS scenario.status = some code)
    (hcode : code ≠ STATUS_UNTESTED)
    (hmatch : hasKey (effectiveCases env p) case_id = true)
    (hpolicy : can_generate_test_run_for_branch p branch = .error e) :
    process_match env branch scenario case_id p sum failed = .error e := by
  cases hp : p.cases.isEmpty with
  | true =>
    have h' : hasKey (casesDict (env.get_cases p.id p.suite_id)) case_id = true := by
      simpa [effectiveCases, hp] using hmatch
    have hcg : can_generate_test_run_for_branch
        { p with cases := casesDict (env.get_cases p.id p.suite_id) } branch
        = .error e := hpolicy
    simp [process_match, load_test_cases_for_project, hp, h', hstatus, hcode, hcg]
  | false =>
    have h' : hasKey p.cases case_id = true := by
      simpa [effectiveCases, hp] using hmatch
    simp [process_match, hp, h', hstatus, hcode, hpolicy]

/-- One match: the fetch and run-lookup calls it makes are covered by the
project's remaining potentials, which never grow. -/
theorem process_match_potential (env : Env) (branch : String)
    (scenario : Scenario) (case_id : String) (p p' : TestrailProject)
    (sum sum' : CaseSummary) (failed failed' : List String) (tr : List Effect)
    (pid : Nat)
    (henv : ∀ i s, env.get_cases i s ≠ [])
    (h : process_match env branch scenario case_id p sum failed =
      .ok (p', sum', failed', tr)) :
    countP (isGetCasesFor pid) tr + (if p'.id = pid then casePot p' else 0)
      ≤ (if p.id = pid then casePot p else 0) ∧
    countP (isGetRunFor pid) tr + (if p'.id = pid then runPot p' else 0)
      ≤ (if p.id = pid then runPot p else 0) := by
  cases hk : hasKey (effectiveCases env p) case_id with
  | false =>
    rw [process_match_not_matched env branch scenario case_id p sum failed hk]
      at h
    simp only [Except.ok.injEq, Prod.mk.injEq] at h
    obtain ⟨h1, -, -, h4⟩ := h
    subst h1
    subst h4
    constructor
    · rw [load_trace_get_cases, loaded_project_id,
        casePot_loaded env p henv]
      by_cases hid : p.id = pid <;> by_cases hp : p.cases.isEmpty <;>
        simp [hid, hp, casePot]
    · rw [load_trace_no_get_run, loaded_project_id, runPot_loaded]
      omega
  | true =>
    cases hs : STATUS_MAPS scenario.status with
    | none =>
      rw [process_match_status_none env branch scenario case_id p sum failed
        hk hs] at h
      exact absurd h (by simp)
    | some code =>
      by_cases hc : code = STATUS_UNTESTED
      · subst hc
        rw [process_match_untested_status env branch scenario case_id p sum
          failed hk hs] at h
        simp only [Except.ok.injEq, Prod.mk.injEq] at h
        obtain ⟨h1, -, -, h4⟩ := h
        subst h1
        subst h4
        constructor
        · rw [load_trace_get_cases, loaded_project_id,
            casePot_loaded env p henv]
          by_cases hid : p.id = pid <;> by_cases hp : p.cases.isEmpty <;>
            simp [hid, hp, casePot]
        · rw [load_trace_no_get_run, loaded_project_id, runPot_loaded]
          omega
      · cases hcg : can_generate_test_run_for_branch p branch with
        | error e =>
          rw [process_match_policy_error env branch scenario case_id p sum
            failed code e hs hc hk hcg] at h
          exact absurd h (by simp)
        | ok allowed =>
          cases allowed with
          | false =>
            rw [process_match_policy_skip env branch scenario case_id p sum
              failed code hs hc hk hcg] at h
            simp only [Except.ok.injEq, Prod.mk.injEq] at h
            obtain ⟨h1, -, -, h4⟩ := h
            subst h1
            subst h4
            constructor
            · rw [load_trace_get_cases, loaded_project_id,
                casePot_loaded env p henv]
              by_cases hid : p.id = pid <;> by_cases hp : p.cases.isEmpty <;>
                simp [hid, hp, casePot]
            · rw [load_trace_no_get_run, loaded_project_id, runPot_loaded]
              omega
          | true =>
            obtain ⟨run, P2, tr0, heq, hid2, -, -, hcases2, hrun2, -, hgc0,
              hgr0, -⟩ :=
              add_test_result_spec env branch (loaded_project env p) case_id
                code (buid_comment_for_scenario scenario)
                (elapsed_string scenario)
            have hpm := process_match_submit env branch scenario case_id p sum
              failed code hs hc hk hcg
            rw [heq] at hpm
            have hcasePotP2 : casePot P2 = 0 := by
              unfold casePot
              rw [hcases2, loaded_project_cases]
              cases hd : (effectiveCases env p).isEmpty
              · simp
              · exact absurd (List.isEmpty_iff.mp hd) (hasKey_ne_nil hk)
            have hrunPotP2 : runPot P2 = 0 := by
              unfold runPot
              rw [hrun2]
              simp
            have hidP2 : P2.id = p.id := by rw [hid2, loaded_project_id]
            have hCntCases : countP (isGetCasesFor pid)
                (load_trace env p ++ (tr0 ++ [Effect.createResult run.id
                  case_id code (buid_comment_for_scenario scenario)
                  (elapsed_string scenario)])) =
                (if p.cases.isEmpty ∧ p.id = pid then 1 else 0) := by
              rw [countP_append, countP_append, load_trace_get_cases, hgc0]
              simp [countP, isGetCasesFor]
            have hCntRun : countP (isGetRunFor pid)
                (load_trace env p ++ (tr0 ++ [Effect.createResult run.id
                  case_id code (buid_comment_for_scenario scenario)
                  (elapsed_string scenario)])) =
                (if p.test_run = none ∧ p.id = pid then 1 else 0) := by
              rw [countP_append, countP_append, load_trace_no_get_run, hgr0,
                loaded_project_test_run, loaded_project_id]
              simp [countP, isGetRunFor]
            cases hcr : env.create_result run.id case_id code
                (buid_comment_for_scenario scenario)
                (elapsed_string scenario) with
            | true =>
              rw [hcr] at hpm
              dsimp only at hpm
              rw [hpm] at h
              simp only [Except.ok.injEq, Prod.mk.injEq] at h
              obtain ⟨h1, -, -, h4⟩ := h
              subst h1
              subst h4
              rw [hCntCases, hCntRun, hidP2, hcasePotP2, hrunPotP2]
              constructor
              · by_cases hid : p.id = pid <;> by_cases hp : p.cases.isEmpty <;>
                  simp [hid, hp, casePot]
              · by_cases hid : p.id = pid <;>
                  by_cases hr : p.test_run = none <;>
                  simp [hid, hr, runPot]
            | false =>
              rw [hcr] at hpm
              dsimp only at hpm
              rw [hpm] at h
              simp only [Except.ok.injEq, Prod.mk.injEq] at h
              obtain ⟨h1, -, -, h4⟩ := h
              subst h1
              subst h4
              rw [hCntCases, hCntRun, hidP2, hcasePotP2, hrunPotP2]
              constructor
              · by_cases hid : p.id = pid <;> by_cases hp : p.cases.isEmpty <;>
                  simp [hid, hp, casePot]
              · by_cases hid : p.id = pid <;>
                  by_cases hr : p.test_run = none <;>
                  simp [hid, hr, runPot]

theorem casePotFor_cons (pid : Nat) (p : TestrailProject)
    (ps : List TestrailProject) :
    casePotFor pid (p :: ps) =
      (if p.id = pid then casePot p else 0) + casePotFor pid ps := by
  simp [casePotFor]

theorem runPotFor_cons (pid : Nat) (p : TestrailProject)
    (ps : List TestrailProject) :
    runPotFor pid (p :: ps) =
      (if p.id = pid then runPot p else 0) + runPotFor pid ps := by
  simp [runPotFor]

/-- The project loop: fetches and run lookups are covered by the
projects' potentials. -/
theorem process_projects_potential (env : Env) (branch : String)
    (scenario : Scenario) (case_id : String) (pid : Nat)
    (henv : ∀ i s, env.get_cases i s ≠ []) :
    ∀ (projects projects' : List TestrailProject) (sum sum' : CaseSummary)
      (failed failed' : List String) (tr : List Effect),
      process_projects env branch scenario case_id projects sum failed =
        .ok (projects', sum', failed', tr) →
      countP (isGetCasesFor pid) tr + casePotFor pid projects'
        ≤ casePotFor pid projects ∧
      countP (isGetRunFor pid) tr + runPotFor pid projects'
        ≤ runPotFor pid projects := by
  intro projects
  induction projects with
  | nil =>
    intro projects' sum sum' failed failed' tr h
    rw [process_projects] at h
    simp only [Except.ok.injEq, Prod.mk.injEq] at h
    obtain ⟨h1, -, -, h4⟩ := h
    subst h1
    subst h4
    simp [countP]
  | cons p ps ih =>
    intro projects' sum sum' failed failed' tr h
    rw [process_projects] at h
    cases hm : process_match env branch scenario case_id p sum failed with
    | error e =>
      rw [hm] at h
      exact absurd h (by simp)
    | ok res =>
      obtain ⟨p1, sum1, failed1, tr1⟩ := res
      rw [hm] at h
      dsimp only at h
      cases hrest : process_projects env branch scenario case_id ps sum1
          failed1 with
      | error e =>
        rw [hrest] at h
        exact absurd h (by simp)
      | ok res2 =>
        obtain ⟨ps', sum2, failed2, tr2⟩ := res2
        rw [hrest] at h
        dsimp only at h
        simp only [Except.ok.injEq, Prod.mk.injEq] at h
        obtain ⟨h1, -, -, h4⟩ := h
        subst h1
        subst h4
        have hstep := process_match_potential env branch scenario case_id p p1
          sum sum1 failed failed1 tr1 pid henv hm
        have hrec := ih ps' sum1 sum2 failed1 failed2 tr2 hrest
        simp only [countP_append, casePotFor_cons, runPotFor_cons]
        omega

/-- The tag loop: fetches and run lookups are covered by the projects'
potentials. -/
theorem process_tags_potential (env : Env) (branch : String)
    (scenario : Scenario) (pid : Nat)
    (henv : ∀ i s, env.get_cases i s ≠ []) :
    ∀ (tags : List String) (projects projects' : List TestrailProject)
      (sum sum' : CaseSummary) (failed failed' : List String)
      (tr : List Effect),
      process_tags env branch scenario tags projects sum failed =
        .ok (projects', sum', failed', tr) →
      countP (isGetCasesFor pid) tr + casePotFor pid projects'
        ≤ casePotFor pid projects ∧
      countP (isGetRunFor pid) tr + runPotFor pid projects'
        ≤ runPotFor pid projects := by
  intro tags
  induction tags with
  | nil =>
    intro projects projects' sum sum' failed failed' tr h
    rw [process_tags] at h
    simp only [Except.ok.injEq, Prod.mk.injEq] at h
    obtain ⟨h1, -, -, h4⟩ := h
    subst h1
    subst h4
    simp [countP]
  | cons t ts ih =>
    intro projects projects' sum sum' failed failed' tr h
    rw [process_tags] at h
    by_cases hpre : str_startsWith t CASE_TAG_PREFIX = true
    · rw [if_pos hpre] at h
      dsimp only at h
      cases hpp : process_projects env branch scenario
          (str_drop t CASE_TAG_PREFIX.length) projects sum failed with
      | error e =>
        rw [hpp] at h
        exact absurd h (by simp)
      | ok res =>
        obtain ⟨projects1, sum1, failed1, tr1⟩ := res
        rw [hpp] at h
        dsimp only at h
        cases hrest : process_tags env branch scenario ts projects1 sum1
            failed1 with
        | error e =>
          rw [hrest] at h
          exact absurd h (by simp)
        | ok res2 =>
          obtain ⟨projects2, sum2, failed2, tr2⟩ := res2
          rw [hrest] at h
          dsimp only at h
          simp only [Except.ok.injEq, Prod.mk.injEq] at h
          obtain ⟨h1, -, -, h4⟩ := h
          subst h1
          subst h4
          have hstep := process_projects_potential env branch scenario
            (str_drop t CASE_TAG_PREFIX.length) pid henv projects projects1
            sum sum1 failed failed1 tr1 hpp
          have hrec := ih projects1 projects2 sum1 sum2 failed1 failed2 tr2
            hrest
          simp only [countP_append]
          omega
    · rw [if_neg hpre] at h
      exact ih projects projects' sum sum' failed failed' tr h

/-- One scenario: fetches and run lookups are covered by the reporter's
potentials. -/
theorem process_scenario_potential (env : Env) (st : TestrailReporter)
    (scenario : Scenario) (st' : TestrailReporter) (tr : List Effect)
    (pid : Nat) (henv : ∀ i s, env.get_cases i s ≠ [])
    (h : process_scenario env st scenario = .ok (st', tr)) :
    countP (isGetCasesFor pid) tr + casePotFor pid st'.projects
      ≤ casePotFor pid st.projects ∧
    countP (isGetRunFor pid) tr + runPotFor pid st'.projects
      ≤ runPotFor pid st.projects := by
  unfold process_scenario at h
  cases htg : process_tags env st.branch_name scenario
      (scenario.tags ++ scenario.featureTags) st.projects st.case_summary
      st.failed_cases with
  | error e =>
    rw [htg] at h
    exact absurd h (by simp)
  | ok res =>
    obtain ⟨projects', sum', failed', tr'⟩ := res
    rw [htg] at h
    dsimp only at h
    simp only [Except.ok.injEq, Prod.mk.injEq] at h
    obtain ⟨hst, htr⟩ := h
    subst hst
    subst htr
    exact process_tags_potential env st.branch_name scenario pid henv
      (scenario.tags ++ scenario.featureTags) st.projects projects'
      st.case_summary sum' st.failed_cases failed' tr' htg

/-- A whole session: fetches and run lookups are covered by the initial
potentials. -/
theorem process_scenarios_potential (env : Env) (pid : Nat)
    (henv : ∀ i s, env.get_cases i s ≠ []) :
    ∀ (scenarios : List Scenario) (st st' : TestrailReporter)
      (tr : List Effect),
      process_scenarios env st scenarios = .ok (st', tr) →
      countP (isGetCasesFor pid) tr + casePotFor pid st'.projects
        ≤ casePotFor pid st.projects ∧
      countP (isGetRunFor pid) tr + runPotFor pid st'.projects
        ≤ runPotFor pid st.projects := by
  intro scenarios
  induction scenarios with
  | nil =>
    intro st st' tr h
    rw [process_scenarios] at h
    simp only [Except.ok.injEq, Prod.mk.injEq] at h
    obtain ⟨h1, h2⟩ := h
    subst h1
    subst h2
    simp [countP]
  | cons s ss ih =>
    intro st st' tr h
    rw [process_scenarios] at h
    cases h1 : process_scenario env st s with
    | error e =>
      rw [h1] at h
      exact absurd h (by simp)
    | ok res =>
      obtain ⟨st1, tr1⟩ := res
      rw [h1] at h
      dsimp only at h
      cases h2 : process_scenarios env st1 ss with
      | error e =>
        rw [h2] at h
        exact absurd h (by simp)
      | ok res2 =>
        obtain ⟨st2, tr2⟩ := res2
        rw [h2] at h
        dsimp only at h
        simp only [Except.ok.injEq, Prod.mk.injEq] at h
        obtain ⟨hst, htr⟩ := h
        subst hst
        subst htr
        have ha := process_scenario_potential env st s st1 tr1 pid henv h1
        have hb := ih st1 st2 tr2 h2
        simp only [countP_append]
        omega

/-- Each project entry contributes at most one to its id's potential,
so the potential of an id is bounded by the number of configured
entries carrying that id (no distinctness of ids needed). -/
theorem potSum_le_count (pid : Nat) (f : TestrailProject → Nat)
    (hf : ∀ q, f q ≤ 1) :
    ∀ (projects : List TestrailProject),
      (projects.map (fun q => if q.id = pid then f q else 0)).sum ≤
        (projects.filter (fun q => q.id == pid)).length := by
  intro projects
  induction projects with
  | nil => simp
  | cons p ps ih =>
    rw [List.map_cons, List.sum_cons, List.filter_cons]
    by_cases hid : p.id = pid
    · rw [if_pos hid]
      have := hf p
      simp only [hid, beq_self_eq_true, if_true, List.length_cons]
      omega
    · have hbeq : (p.id == pid) = false := by simp [hid]
      rw [if_neg hid, hbeq]
      simpa using ih

/-- C2 (amended): provided the external service never returns an empty
case list, a session performs at most one case fetch and at most one
run lookup per configured project entry: for every project id, the
number of `get_cases` (resp. `get_run_for_branch`) calls carrying that
id is bounded by the number of configured entries with that id that
still need their lazy case load (resp. run setup), itself at most the
number of configured entries with that id — with no assumption that ids
are distinct.  With an empty case list the fetch is instead repeated on
every matching tag, as the counterexample shows. -/
theorem C2_memoization_amended (env : Env) (st : TestrailReporter)
    (scenarios : List Scenario) (st' : TestrailReporter) (tr : List Effect)
    (henv : ∀ i s, env.get_cases i s ≠ [])
    (h : process_scenarios env st scenarios = .ok (st', tr)) :
    ∀ pid : Nat,
      countP (isGetCasesFor pid) tr ≤ casePotFor pid st.projects ∧
      countP (isGetRunFor pid) tr ≤ runPotFor pid st.projects ∧
      casePotFor pid st.projects ≤
        (st.projects.filter (fun q => q.id == pid)).length ∧
      runPotFor pid st.projects ≤
        (st.projects.filter (fun q => q.id == pid)).length := by
  intro pid
  obtain ⟨hc, hr⟩ := process_scenarios_potential env pid henv scenarios st st'
    tr h
  refine ⟨by omega, by omega, ?_, ?_⟩
  · unfold casePotFor
    exact potSum_le_count pid casePot
      (fun q => by unfold casePot; split <;> simp) st.projects
  · unfold runPotFor
    exact potSum_le_count pid runPot
      (fun q => by unfold runPot; split <;> simp) st.projects

/-- C2 amended witness: the bound evaluated on a concrete two-scenario
session that fetches once, looks the run up once, and submits twice. -/
theorem C2_memoization_amended_witness :
    countP (isGetCasesFor 1)
      [Effect.getCases 1 2, Effect.getRunForBranch 1 "main",
       Effect.createRun 1 2 "main",
       Effect.createResult 1 "7" 1 "S\n" "0s",
       Effect.createResult 1 "7" 1 "S\n" "0s"] ≤
      casePotFor 1 [maProject] ∧
    countP (isGetRunFor 1)
      [Effect.getCases 1 2, Effect.getRunForBranch 1 "main",
       Effect.createRun 1 2 "main",
       Effect.createResult 1 "7" 1 "S\n" "0s",
       Effect.createResult 1 "7" 1 "S\n" "0s"] ≤
      runPotFor 1 [maProject] ∧
    casePotFor 1 [maProject] ≤
      (([maProject] : List TestrailProject).filter
        (fun q => q.id == 1)).length ∧
    runPotFor 1 [maProject] ≤
      (([maProject] : List TestrailProject).filter
        (fun q => q.id == 1)).length :=
  C2_memoization_amended envOneCase
    { branch_name := "main", projects := [maProject] }
    [passedScenario, passedScenario]
    { branch_name := "main",
      projects := [{ id := 1, name := "P", suite_id := 2, test_run_name := "",
                     allowed_branch_pattern := "ma",
                     test_run := some { id := 1 },
                     cases := [("7", { id := 7 })] }],
      case_summary := { passed := 2, failed := 0, skipped := 0, untested := 0 },
      failed_cases := [] }
    [Effect.getCases 1 2, Effect.getRunForBranch 1 "main",
     Effect.createRun 1 2 "main",
     Effect.createResult 1 "7" 1 "S\n" "0s",
     Effect.createResult 1 "7" 1 "S\n" "0s"]
    (fun _ _ => by simp [envOneCase]) rfl 1

end TestrailReporterModel
